import Mathlib

/-!
# The event-rate governor of `watch.ProcessDirectoryChanges`

A shallow embedding of the goroutine started by `ProcessDirectoryChanges`
(`src/watch/watch.go`, lines 40-95): the `select` loop that receives
filesystem events and watcher errors, filters events by operation kind,
counts them against `config.MaxEvents` inside a window of
`config.EventTimeout`, and calls `config.WorkFunc(dir)` for the events it
lets through.

The loop is modelled as a pure function from the loop variables
(`eventCount`, `lastEventTime`) and one received item to the new loop
variables, the effects performed (log records and `WorkFunc` calls, in
order) and whether the loop goes round again or the goroutine returns.
The reading of the clock made at line 60 travels with the event it is
made for.

Arithmetic follows Go: `time.Duration` and `int` are 64-bit and wrap
(`wrapInt64`), `Time.Sub` saturates. In the statements below
`now - lastEventTime` is `Time.Sub` and `eventCount + 1` is `intIncr`, the
values the program itself compares; `Time.Sub_of_fits` and `intIncr_of_lt`
say when they are the exact difference and the exact successor.
-/

namespace watch

/-! ## Library types: `time` -/

/-- `time.Duration`: a signed 64-bit number of nanoseconds. -/
abbrev Duration := Int

/-- `time.minDuration`, the least `int64`. -/
def minDuration : Duration := -9223372036854775808

/-- `time.maxDuration`, the greatest `int64`. -/
def maxDuration : Duration := 9223372036854775807

/-- `time.Millisecond`. -/
def Millisecond : Duration := 1000000

/-- `time.Second`. -/
def Second : Duration := 1000000000

/-- Two's-complement wrap into the `int64` range: what Go's arithmetic on
`int64` (and on `int`, on 64-bit targets) returns for the exact result `x`. -/
def wrapInt64 (x : Int) : Int :=
  (x + 9223372036854775808) % 18446744073709551616 - 9223372036854775808

/-- Go's `d - e` on two `time.Duration` values. -/
def Duration.sub (d e : Duration) : Duration := wrapInt64 (d - e)

/-- `Duration.Truncate`: `d` rounded toward zero to a multiple of `m`;
`d` itself when `m <= 0`. Go's `%` truncates toward zero. -/
def Duration.Truncate (d m : Duration) : Duration :=
  if m ≤ 0 then d else wrapInt64 (d - Int.tmod d m)

/-- `time.Time`, as an instant counted in nanoseconds on the clock that
`time.Now()` reads. -/
structure Time where
  nsec : Int
deriving DecidableEq, Repr

/-- `Time.Sub`: the duration `t - u`, saturated at `maxDuration` and
`minDuration` when the difference does not fit a `Duration`. -/
def Time.Sub (t u : Time) : Duration :=
  if t.nsec - u.nsec > maxDuration then maxDuration
  else if t.nsec - u.nsec < minDuration then minDuration
  else t.nsec - u.nsec

/-! ## Library types: `fsnotify` -/

/-- `fsnotify.Op`: a bit mask (`uint32`) of operation kinds. -/
abbrev Op := Nat

/-- `fsnotify.Create`, `1 << 0`. -/
def Create : Op := 1

/-- `fsnotify.Write`, `1 << 1`. -/
def Write : Op := 2

/-- `fsnotify.Remove`, `1 << 2`. -/
def Remove : Op := 4

/-- `fsnotify.Rename`, `1 << 3`. -/
def Rename : Op := 8

/-- `fsnotify.Chmod`, `1 << 4`. -/
def Chmod : Op := 16

/-- `fsnotify.Event`: the path the event is about and its operation mask. -/
structure Event where
  Name : String
  Op : Op
deriving DecidableEq, Repr

/-! ## The configuration and the loop variables -/

/-- `DirectoryConfig` (lines 12-16). The `WorkFunc` field is a procedure
run for its effect; the model records each call of it, with its argument,
as `Effect.work`. -/
structure DirectoryConfig where
  MaxEvents : Int
  EventTimeout : Duration
deriving DecidableEq, Repr

/-- The two variables the goroutine closes over (lines 40-41). -/
structure GovernorState where
  eventCount : Int
  lastEventTime : Time
deriving DecidableEq, Repr

/-- The loop variables as lines 40-41 set them: `eventCount := 0`,
`lastEventTime := time.Now()`, the clock reading being `start`. -/
def initialState (start : Time) : GovernorState :=
  { eventCount := 0, lastEventTime := start }

/-- A record handed to `slog`. The remaining time, logged through
`Duration.String`, is kept as the duration it prints. -/
inductive LogRecord where
  /-- `slog.Debug("too many events, suppressing...", ...)`, lines 67-74. -/
  | suppressing (count max : Int) (timeout : Duration)
      (lastEventTime currentTime : Time) (remaining : Duration)
  /-- `slog.Info("suppression stats", ...)`, lines 75-79. -/
  | suppressionStats (op : Op) (timeout : Duration) (remaining : Duration)
  /-- `slog.Debug("File event", ...)`, line 85. -/
  | fileEvent (op : Op) (fname dir : String)
  /-- `slog.Error("watcher error", ...)`, line 92. -/
  | watcherError (err : String)
deriving DecidableEq, Repr

/-- What one turn of the loop does to the outside, in program order. -/
inductive Effect where
  | log (r : LogRecord)
  /-- `config.WorkFunc(dir)`, line 86, with the argument it is given. -/
  | work (arg : String)
deriving DecidableEq, Repr

/-- How a turn of the `for` loop ends: round again (`continue`, or the end
of the `select`), or `return` from the goroutine. -/
inductive Control where
  | loop
  | ret
deriving DecidableEq, Repr

/-- What the `select` of line 45 receives: a value from `watcher.Events`
together with the clock reading `time.Now()` of line 60, the closure of
`watcher.Events` (`ok == false`), a value from `watcher.Errors`, or the
closure of `watcher.Errors`. -/
inductive Input where
  | event (event : Event) (currentTime : Time)
  | eventsClosed
  | error (err : String)
  | errorsClosed
deriving DecidableEq, Repr

/-- The outcome of one turn of the loop. -/
structure Turn where
  state : GovernorState
  effects : List Effect
  ctl : Control
deriving DecidableEq, Repr

/-! ## The loop -/

/-- The `switch` of lines 51-58: `true` when one of the four cases
matches (each has an empty body), `false` on `default` (`continue`). -/
def opSwitch (op : Op) : Bool :=
  if op &&& Write = Write then true
  else if op &&& Create = Create then true
  else if op &&& Remove = Remove then true
  else if op &&& Chmod = Chmod then true
  else false

/-- Go's `eventCount++` on an `int`. -/
def intIncr (n : Int) : Int := wrapInt64 (n + 1)

/-- One turn of the `for { select { ... } }` loop, lines 44-94. -/
def loopBody (dir : String) (config : DirectoryConfig) (st : GovernorState) :
    Input → Turn
  | .eventsClosed => { state := st, effects := [], ctl := .ret }
  | .event event currentTime =>
    if opSwitch event.Op = false then
      { state := st, effects := [], ctl := .loop }
    else
      let remainingTime :=
        Duration.Truncate
          (Duration.sub config.EventTimeout (currentTime.Sub st.lastEventTime)) Second
      if currentTime.Sub st.lastEventTime > config.EventTimeout then
        { state := { eventCount := 1, lastEventTime := currentTime }
          effects := [.log (.fileEvent event.Op event.Name dir), .work dir]
          ctl := .loop }
      else
        let eventCount := intIncr st.eventCount
        if eventCount > config.MaxEvents then
          { state := { eventCount := eventCount, lastEventTime := st.lastEventTime }
            effects :=
              [.log (.suppressing eventCount config.MaxEvents config.EventTimeout
                  st.lastEventTime currentTime remainingTime),
               .log (.suppressionStats event.Op config.EventTimeout remainingTime)]
            ctl := .loop }
        else
          { state := { eventCount := eventCount, lastEventTime := currentTime }
            effects := [.log (.fileEvent event.Op event.Name dir), .work dir]
            ctl := .loop }
  | .error err => { state := st, effects := [.log (.watcherError err)], ctl := .loop }
  | .errorsClosed => { state := st, effects := [], ctl := .ret }

/-- The goroutine run on the items its `select` receives, one after the
other: the loop variables at the end, every effect in order, and whether
the goroutine has returned. Items after a `return` are not received. -/
def runLoop (dir : String) (config : DirectoryConfig) :
    GovernorState → List Input → Turn
  | st, [] => { state := st, effects := [], ctl := .loop }
  | st, i :: rest =>
    match loopBody dir config st i with
    | { state := st1, effects := eff, ctl := .ret } =>
      { state := st1, effects := eff, ctl := .ret }
    | { state := st1, effects := eff, ctl := .loop } =>
      let r := runLoop dir config st1 rest
      { state := r.state, effects := eff ++ r.effects, ctl := r.ctl }

/-- The arguments of the `WorkFunc` calls among some effects, in order. -/
def workCalls : List Effect → List String
  | [] => []
  | .work arg :: rest => arg :: workCalls rest
  | .log _ :: rest => workCalls rest

/-- The turns of the loop on the items received, one `Turn` per item, up
to and including the turn that returns. -/
def loopTurns (dir : String) (config : DirectoryConfig) :
    GovernorState → List Input → List Turn
  | _, [] => []
  | st, i :: rest =>
    match loopBody dir config st i with
    | { state := st1, effects := eff, ctl := .ret } =>
      [{ state := st1, effects := eff, ctl := .ret }]
    | { state := st1, effects := eff, ctl := .loop } =>
      { state := st1, effects := eff, ctl := .loop } :: loopTurns dir config st1 rest

/-- A run of events, each with the clock reading made for it, as items
received on `watcher.Events`. -/
def eventInputs (evs : List (Event × Time)) : List Input :=
  evs.map (fun p => Input.event p.1 p.2)

/-! ## The admission rule, as a predicate on the loop variables -/

/-- Whether the governor lets an item through: it is an event that passes
the kind filter, and either it comes more than `EventTimeout` after
`lastEventTime` or the incremented count does not exceed `MaxEvents`.
Closures and watcher errors are never let through. -/
def admits (config : DirectoryConfig) (st : GovernorState) : Input → Bool
  | .event event now =>
    opSwitch event.Op &&
      (decide (now.Sub st.lastEventTime > config.EventTimeout) ||
        decide (intIncr st.eventCount ≤ config.MaxEvents))
  | _ => false

/-- The events of a run that the governor lets through, in order, each
with its clock reading; the loop variables are threaded by `loopBody`, and
nothing is received after the goroutine has returned. -/
def admittedEvents (dir : String) (config : DirectoryConfig) :
    GovernorState → List Input → List (Event × Time)
  | _, [] => []
  | st, .event event now :: rest =>
    if admits config st (.event event now) then
      (event, now) :: admittedEvents dir config (loopBody dir config st (.event event now)).state rest
    else admittedEvents dir config (loopBody dir config st (.event event now)).state rest
  | st, .error err :: rest =>
    admittedEvents dir config (loopBody dir config st (.error err)).state rest
  | _, .eventsClosed :: _ => []
  | _, .errorsClosed :: _ => []

/-- Whether every event of a run is received at most `EventTimeout`
after `lastEventTime` as it stands when the event is received, so that
none takes the restart branch of line 62. -/
def staysInWindow (dir : String) (config : DirectoryConfig) :
    GovernorState → List (Event × Time) → Bool
  | _, [] => true
  | st, p :: rest =>
    decide (p.2.Sub st.lastEventTime ≤ config.EventTimeout) &&
      staysInWindow dir config (loopBody dir config st (.event p.1 p.2)).state rest

/-- The time remaining that a suppression record carries: the last field
of the debug record of lines 67-74 and of the info record of lines 75-79.
The other records carry none. -/
def LogRecord.remaining : LogRecord → Option Duration
  | .suppressing _ _ _ _ _ r => some r
  | .suppressionStats _ _ r => some r
  | .fileEvent _ _ _ => none
  | .watcherError _ => none

/-- One turn of the loop with the value of `remainingTime` (line 61) given
from outside instead of computed: `loopBody` with `report` in the place
of the truncated difference. It serves to state that the value reaches
the log records and nothing else. -/
def loopBodyReporting (report : Duration) (dir : String) (config : DirectoryConfig)
    (st : GovernorState) : Input → Turn
  | .eventsClosed => { state := st, effects := [], ctl := .ret }
  | .event event currentTime =>
    if opSwitch event.Op = false then
      { state := st, effects := [], ctl := .loop }
    else
      let remainingTime := report
      if currentTime.Sub st.lastEventTime > config.EventTimeout then
        { state := { eventCount := 1, lastEventTime := currentTime }
          effects := [.log (.fileEvent event.Op event.Name dir), .work dir]
          ctl := .loop }
      else
        let eventCount := intIncr st.eventCount
        if eventCount > config.MaxEvents then
          { state := { eventCount := eventCount, lastEventTime := st.lastEventTime }
            effects :=
              [.log (.suppressing eventCount config.MaxEvents config.EventTimeout
                  st.lastEventTime currentTime remainingTime),
               .log (.suppressionStats event.Op config.EventTimeout remainingTime)]
            ctl := .loop }
        else
          { state := { eventCount := eventCount, lastEventTime := currentTime }
            effects := [.log (.fileEvent event.Op event.Name dir), .work dir]
            ctl := .loop }
  | .error err => { state := st, effects := [.log (.watcherError err)], ctl := .loop }
  | .errorsClosed => { state := st, effects := [], ctl := .ret }

/-- A budget on admitted events: walking the list from the instant
`prev`, an event more than `window` after the one before it refills the
budget to `max - 1`, and any other event needs a budget of at least one
and uses one up. -/
def gapBudget (window : Duration) (max : Int) : Int → Time → List (Event × Time) → Prop
  | _, _, [] => True
  | k, prev, x :: rest =>
    if x.2.Sub prev > window then gapBudget window max (max - 1) x.2 rest
    else 1 ≤ k ∧ gapBudget window max (k - 1) x.2 rest

/-- An item that is neither a relevant event nor a closure: a watcher
error, or an event that fails the kind filter. -/
def inert : Input → Bool
  | .error _ => true
  | .event event _ => !opSwitch event.Op
  | .eventsClosed => false
  | .errorsClosed => false

/-! ## The start operation -/

/-- What `os.Stat(dir)` answers (line 21): a `FileInfo` (of a directory or
not), an error for which `os.IsNotExist` holds, or another error. -/
inductive StatResult where
  | found (isDir : Bool)
  | notExist
  | failed (err : String)
deriving DecidableEq, Repr

/-- The collaborators of the set-up as the start operation finds them: the
file system's answer to `os.Stat`, the error of `fsnotify.NewWatcher()`
(`none` when a watcher is created) and the error of `watcher.Add`
(`none` when the path is registered). -/
structure World where
  stat : String → StatResult
  newWatcher : Option String
  add : String → Option String

/-- What the set-up does to the watcher and the log, in program order. -/
inductive SetupStep where
  /-- `fsnotify.NewWatcher()` returned a watcher (line 25). -/
  | watcherCreated
  /-- `watcher.Add(dir)` registered the path (line 31). -/
  | pathAdded (dir : String)
  /-- The deferred `watcher.Close()` (line 29), run on return. -/
  | watcherClosed
  /-- `slog.Info("watching directory", "path", dir)` (line 36). -/
  | logWatching (dir : String)
deriving DecidableEq, Repr

/-- The errors `ProcessDirectoryChanges` returns (lines 22, 27, 33). -/
inductive StartError where
  /-- `"directory %s does not exist"`. -/
  | directoryMissing (dir : String)
  /-- `"failed to create watcher: %v"`. -/
  | createWatcher (err : String)
  /-- `"failed to add directory to watcher: %v"`. -/
  | addDirectory (err : String)
deriving DecidableEq, Repr

/-- How a call of `ProcessDirectoryChanges` ends: it returns an error, or
it stays at `<-done` (line 97), on which nothing is ever sent. -/
inductive Outcome where
  | failed (err : StartError)
  | blocked
deriving DecidableEq, Repr

/-- A call of `ProcessDirectoryChanges`: how it ends, the set-up steps it
performed, and the run of the goroutine when one was started. -/
structure Start where
  outcome : Outcome
  setup : List SetupStep
  loop : Option Turn
deriving DecidableEq, Repr

/-- `ProcessDirectoryChanges` (lines 20-100). `start` is the clock reading
of line 41 and `inputs` what the goroutine's `select` receives. -/
def ProcessDirectoryChanges (world : World) (dir : String) (config : DirectoryConfig)
    (start : Time) (inputs : List Input) : Start :=
  match world.stat dir with
  | .notExist => { outcome := .failed (.directoryMissing dir), setup := [], loop := none }
  | _ =>
    match world.newWatcher with
    | some err => { outcome := .failed (.createWatcher err), setup := [], loop := none }
    | none =>
      match world.add dir with
      | some err =>
        { outcome := .failed (.addDirectory err)
          setup := [.watcherCreated, .watcherClosed]
          loop := none }
      | none =>
        { outcome := .blocked
          setup := [.watcherCreated, .pathAdded dir, .logWatching dir]
          loop := some (runLoop dir config (initialState start) inputs) }

/-- `RunTest` (lines 102-111): the start operation with `MaxEvents = 1` and
a window of five seconds. -/
def RunTest (world : World) (dir : String) (start : Time) (inputs : List Input) : Start :=
  ProcessDirectoryChanges world dir { MaxEvents := 1, EventTimeout := 5 * Second } start inputs

/-! ## Arithmetic of the library operations -/

/-- Wrapping leaves a value that fits an `int64` alone. -/
theorem wrapInt64_of_fits (x : Int) (hlo : -9223372036854775808 ≤ x)
    (hhi : x ≤ 9223372036854775807) : wrapInt64 x = x := by
  unfold wrapInt64; omega

/-- A wrapped value is at least the least `int64`. -/
theorem wrapInt64_lower (x : Int) : -9223372036854775808 ≤ wrapInt64 x := by
  unfold wrapInt64; omega

/-- A wrapped value is at most the greatest `int64`. -/
theorem wrapInt64_upper (x : Int) : wrapInt64 x ≤ 9223372036854775807 := by
  unfold wrapInt64; omega

/-- Wrapping never raises a value that is not below the `int64` range. -/
theorem wrapInt64_le_self (x : Int) (hlo : -9223372036854775808 ≤ x) :
    wrapInt64 x ≤ x := by
  unfold wrapInt64; omega

/-- Below the top of the `int` range `eventCount++` adds one. -/
theorem intIncr_of_lt (n : Int) (hlo : -9223372036854775809 ≤ n)
    (hhi : n < 9223372036854775807) : intIncr n = n + 1 := by
  unfold intIncr; exact wrapInt64_of_fits _ (by omega) (by omega)

/-- `Time.Sub` is the exact difference whenever that fits a `Duration`. -/
theorem Time.Sub_of_fits (t u : Time) (hlo : minDuration ≤ t.nsec - u.nsec)
    (hhi : t.nsec - u.nsec ≤ maxDuration) : t.Sub u = t.nsec - u.nsec := by
  unfold Time.Sub
  unfold minDuration maxDuration Duration at *
  rw [if_neg (by omega), if_neg (by omega)]

/-- The later the instant subtracted, the smaller `Time.Sub`. -/
theorem Time.Sub_mono_right (t u v : Time) (h : u.nsec ≤ v.nsec) :
    t.Sub v ≤ t.Sub u := by
  unfold Time.Sub minDuration maxDuration Duration
  split_ifs <;> omega

/-- A mask test against a single bit that fails leaves nothing of the bit. -/
theorem and_bit_eq_zero (op i : Nat) (h : op &&& 2 ^ i ≠ 2 ^ i) : op &&& 2 ^ i = 0 := by
  rw [Nat.and_two_pow] at h ⊢
  cases hb : op.testBit i <;> simp [hb] at h ⊢

/-- What is disjoint from a mask is disjoint from every part of it. -/
theorem and_of_mask_zero (op m b : Nat) (hb : m &&& b = b) (h : op &&& m = 0) :
    op &&& b = 0 := by
  have hsplit : op &&& b = (op &&& m) &&& b := by rw [Nat.land_assoc, hb]
  rw [hsplit, h]; simp

/-- The `switch` falls to `default` exactly when the operation mask has
none of the `Write`, `Create`, `Remove`, `Chmod` bits. -/
theorem opSwitch_false_iff (op : Op) :
    opSwitch op = false ↔ op &&& (Write ||| Create ||| Remove ||| Chmod) = 0 := by
  unfold opSwitch Write Create Remove Chmod
  constructor
  · intro h
    split_ifs at h with h1 h2 h3 h4
    have e1 := and_bit_eq_zero op 1 h1
    have e2 := and_bit_eq_zero op 0 h2
    have e3 := and_bit_eq_zero op 2 h3
    have e4 := and_bit_eq_zero op 4 h4
    simp only [Nat.pow_zero, Nat.pow_one, Nat.reducePow] at e1 e2 e3 e4
    rw [Nat.and_or_distrib_left, Nat.and_or_distrib_left, Nat.and_or_distrib_left,
      e1, e2, e3, e4]
    rfl
  · intro h
    have e1 := and_of_mask_zero op _ 2 (by decide) h
    have e2 := and_of_mask_zero op _ 1 (by decide) h
    have e3 := and_of_mask_zero op _ 4 (by decide) h
    have e4 := and_of_mask_zero op _ 16 (by decide) h
    simp [e1, e2, e3, e4]

/-! ## One turn of the loop, branch by branch -/

/-- The turn of an event that fails the kind filter. -/
theorem loopBody_dropped (dir : String) (config : DirectoryConfig) (st : GovernorState)
    (event : Event) (now : Time) (hrel : opSwitch event.Op = false) :
    loopBody dir config st (.event event now) = { state := st, effects := [], ctl := .loop } := by
  simp [loopBody, hrel]

/-- The turn of a relevant event that comes after the window has run out. -/
theorem loopBody_restart (dir : String) (config : DirectoryConfig) (st : GovernorState)
    (event : Event) (now : Time) (hrel : opSwitch event.Op = true)
    (hgap : now.Sub st.lastEventTime > config.EventTimeout) :
    loopBody dir config st (.event event now) =
      { state := { eventCount := 1, lastEventTime := now }
        effects := [.log (.fileEvent event.Op event.Name dir), .work dir]
        ctl := .loop } := by
  simp [loopBody, hrel, hgap]

/-- The turn of a relevant event inside the window whose count is within
`MaxEvents`. -/
theorem loopBody_within (dir : String) (config : DirectoryConfig) (st : GovernorState)
    (event : Event) (now : Time) (hrel : opSwitch event.Op = true)
    (hwin : now.Sub st.lastEventTime ≤ config.EventTimeout)
    (hcount : intIncr st.eventCount ≤ config.MaxEvents) :
    loopBody dir config st (.event event now) =
      { state := { eventCount := intIncr st.eventCount, lastEventTime := now }
        effects := [.log (.fileEvent event.Op event.Name dir), .work dir]
        ctl := .loop } := by
  simp [loopBody, hrel, not_lt.mpr hwin, not_lt.mpr hcount]

/-- The turn of a relevant event inside the window whose count is over
`MaxEvents`. -/
theorem loopBody_over (dir : String) (config : DirectoryConfig) (st : GovernorState)
    (event : Event) (now : Time) (hrel : opSwitch event.Op = true)
    (hwin : now.Sub st.lastEventTime ≤ config.EventTimeout)
    (hcount : config.MaxEvents < intIncr st.eventCount) :
    loopBody dir config st (.event event now) =
      { state := { eventCount := intIncr st.eventCount, lastEventTime := st.lastEventTime }
        effects :=
          [.log (.suppressing (intIncr st.eventCount) config.MaxEvents config.EventTimeout
              st.lastEventTime now
              (Duration.Truncate
                (Duration.sub config.EventTimeout (now.Sub st.lastEventTime)) Second)),
           .log (.suppressionStats event.Op config.EventTimeout
              (Duration.Truncate
                (Duration.sub config.EventTimeout (now.Sub st.lastEventTime)) Second))]
        ctl := .loop } := by
  simp [loopBody, hrel, not_lt.mpr hwin, hcount]

/-- A turn for an event never returns from the goroutine. -/
theorem loopBody_event_ctl (dir : String) (config : DirectoryConfig) (st : GovernorState)
    (event : Event) (now : Time) :
    (loopBody dir config st (.event event now)).ctl = .loop := by
  simp only [loopBody]
  split_ifs <;> rfl

/-- On its first event after the start, with `MaxEvents` at least 1, the
loop admits and counts 1, whether the branch taken is the restart or the
increment from 0. -/
theorem loopBody_initial (dir : String) (config : DirectoryConfig) (start : Time)
    (event : Event) (now : Time) (hrel : opSwitch event.Op = true)
    (hmax : 1 ≤ config.MaxEvents) :
    loopBody dir config (initialState start) (.event event now) =
      { state := { eventCount := 1, lastEventTime := now }
        effects := [.log (.fileEvent event.Op event.Name dir), .work dir]
        ctl := .loop } := by
  by_cases hgap : now.Sub (initialState start).lastEventTime > config.EventTimeout
  · exact loopBody_restart dir config _ event now hrel hgap
  · have hone : intIncr (initialState start).eventCount = 1 := by
      show intIncr 0 = 1
      decide
    rw [loopBody_within dir config _ event now hrel (not_lt.mp hgap) (by rw [hone]; exact hmax),
      hone]

/-- The calls of `WorkFunc` in one turn: one, with the directory, when the
item is admitted, none otherwise. -/
theorem workCalls_loopBody (dir : String) (config : DirectoryConfig) (st : GovernorState)
    (i : Input) :
    workCalls (loopBody dir config st i).effects = if admits config st i then [dir] else [] := by
  cases i with
  | event event now =>
    by_cases hrel : opSwitch event.Op = true
    · by_cases hgap : now.Sub st.lastEventTime > config.EventTimeout
      · rw [loopBody_restart dir config st event now hrel hgap]
        simp [admits, hrel, hgap, workCalls]
      · by_cases hcount : intIncr st.eventCount ≤ config.MaxEvents
        · rw [loopBody_within dir config st event now hrel (not_lt.mp hgap) hcount]
          simp [admits, hrel, hcount, workCalls]
        · rw [loopBody_over dir config st event now hrel (not_lt.mp hgap) (not_le.mp hcount)]
          simp [admits, hgap, hcount, workCalls]
    · rw [loopBody_dropped dir config st event now (by simpa using hrel)]
      simp [admits, hrel, workCalls]
  | eventsClosed => simp [loopBody, admits, workCalls]
  | error err => simp [loopBody, admits, workCalls]
  | errorsClosed => simp [loopBody, admits, workCalls]

/-- The anchor after one turn: the clock reading of the item when it is
admitted, the old anchor otherwise. -/
theorem lastEventTime_loopBody_event (dir : String) (config : DirectoryConfig)
    (st : GovernorState) (event : Event) (now : Time) :
    (loopBody dir config st (.event event now)).state.lastEventTime =
      if admits config st (.event event now) then now else st.lastEventTime := by
  by_cases hrel : opSwitch event.Op = true
  · by_cases hgap : now.Sub st.lastEventTime > config.EventTimeout
    · rw [loopBody_restart dir config st event now hrel hgap]
      simp [admits, hrel, hgap]
    · by_cases hcount : intIncr st.eventCount ≤ config.MaxEvents
      · rw [loopBody_within dir config st event now hrel (not_lt.mp hgap) hcount]
        simp [admits, hrel, hcount]
      · rw [loopBody_over dir config st event now hrel (not_lt.mp hgap) (not_le.mp hcount)]
        simp [admits, hgap, hcount]
  · rw [loopBody_dropped dir config st event now (by simpa using hrel)]
    simp [admits, hrel]

/-! ## The loop over several items -/

/-- `workCalls` distributes over the concatenation of effects. -/
theorem workCalls_append (a b : List Effect) : workCalls (a ++ b) = workCalls a ++ workCalls b := by
  induction a with
  | nil => rfl
  | cons x rest ih => cases x <;> simp [workCalls, ih]

/-- The run after a turn that goes round again. -/
theorem runLoop_cons_of_loop (dir : String) (config : DirectoryConfig) (st : GovernorState)
    (i : Input) (rest : List Input) (h : (loopBody dir config st i).ctl = .loop) :
    runLoop dir config st (i :: rest) =
      { state := (runLoop dir config (loopBody dir config st i).state rest).state
        effects := (loopBody dir config st i).effects ++
          (runLoop dir config (loopBody dir config st i).state rest).effects
        ctl := (runLoop dir config (loopBody dir config st i).state rest).ctl } := by
  rw [runLoop]
  generalize loopBody dir config st i = t at h ⊢
  obtain ⟨s, e, c⟩ := t
  cases c <;> simp_all

/-- The run stops at a turn that returns. -/
theorem runLoop_cons_of_ret (dir : String) (config : DirectoryConfig) (st : GovernorState)
    (i : Input) (rest : List Input) (h : (loopBody dir config st i).ctl = .ret) :
    runLoop dir config st (i :: rest) = loopBody dir config st i := by
  rw [runLoop]
  generalize loopBody dir config st i = t at h ⊢
  obtain ⟨s, e, c⟩ := t
  cases c <;> simp_all

/-- The run on an event followed by further items. -/
theorem runLoop_event_cons (dir : String) (config : DirectoryConfig) (st : GovernorState)
    (event : Event) (now : Time) (rest : List Input) :
    runLoop dir config st (.event event now :: rest) =
      { state := (runLoop dir config (loopBody dir config st (.event event now)).state rest).state
        effects := (loopBody dir config st (.event event now)).effects ++
          (runLoop dir config (loopBody dir config st (.event event now)).state rest).effects
        ctl := (runLoop dir config (loopBody dir config st (.event event now)).state rest).ctl } :=
  runLoop_cons_of_loop dir config st _ rest (loopBody_event_ctl dir config st event now)

/-- The turns on an event followed by further items. -/
theorem loopTurns_event_cons (dir : String) (config : DirectoryConfig) (st : GovernorState)
    (event : Event) (now : Time) (rest : List Input) :
    loopTurns dir config st (.event event now :: rest) =
      loopBody dir config st (.event event now) ::
        loopTurns dir config (loopBody dir config st (.event event now)).state rest := by
  have h := loopBody_event_ctl dir config st event now
  rw [loopTurns]
  generalize loopBody dir config st (.event event now) = t at h ⊢
  obtain ⟨s, e, c⟩ := t
  cases c <;> simp_all

/-- A run of events followed by further items: the events are run first,
the rest from the loop variables they leave. -/
theorem runLoop_events_append (dir : String) (config : DirectoryConfig)
    (evs : List (Event × Time)) (st : GovernorState) (rest : List Input) :
    runLoop dir config st (eventInputs evs ++ rest) =
      { state := (runLoop dir config (runLoop dir config st (eventInputs evs)).state rest).state
        effects := (runLoop dir config st (eventInputs evs)).effects ++
          (runLoop dir config (runLoop dir config st (eventInputs evs)).state rest).effects
        ctl := (runLoop dir config (runLoop dir config st (eventInputs evs)).state rest).ctl } := by
  induction evs generalizing st with
  | nil => simp [eventInputs, runLoop]
  | cons p evs ih =>
    have hcons : eventInputs (p :: evs) = .event p.1 p.2 :: eventInputs evs := rfl
    rw [hcons, List.cons_append, runLoop_event_cons, runLoop_event_cons, ih]
    simp

/-- The anchor never passes a bound that is at or after it and at or after
every event of the run. -/
theorem lastEventTime_le_bound (dir : String) (config : DirectoryConfig)
    (evs : List (Event × Time)) (st : GovernorState) (bound : Int)
    (hst : st.lastEventTime.nsec ≤ bound) (hevs : ∀ p ∈ evs, p.2.nsec ≤ bound) :
    (runLoop dir config st (eventInputs evs)).state.lastEventTime.nsec ≤ bound := by
  induction evs generalizing st with
  | nil => simpa [eventInputs, runLoop] using hst
  | cons p evs ih =>
    have hcons : eventInputs (p :: evs) = .event p.1 p.2 :: eventInputs evs := rfl
    rw [hcons, runLoop_event_cons]
    apply ih
    · rw [lastEventTime_loopBody_event]
      split_ifs
      · exact hevs p (List.mem_cons_self _ _)
      · exact hst
    · intro q hq
      exact hevs q (List.mem_cons_of_mem _ hq)

/-! ## Step contracts -/

/-- C1 (window restart). For every value of the loop variables and of
`MaxEvents`, a relevant event whose clock reading is more than
`EventTimeout` after `lastEventTime` is admitted: `WorkFunc` is called
exactly once, `eventCount` becomes exactly 1 and `lastEventTime` becomes
the reading. -/
theorem window_restart_admits (dir : String) (config : DirectoryConfig) (st : GovernorState)
    (event : Event) (now : Time) (hrel : opSwitch event.Op = true)
    (hgap : now.Sub st.lastEventTime > config.EventTimeout) :
    workCalls (loopBody dir config st (.event event now)).effects = [dir] ∧
      (loopBody dir config st (.event event now)).state.eventCount = 1 ∧
      (loopBody dir config st (.event event now)).state.lastEventTime = now := by
  rw [loopBody_restart dir config st event now hrel hgap]
  exact ⟨rfl, rfl, rfl⟩

/-- Witness of C1: a `Write` 6s after the last admitted event, with a 5s
window, a count of 7 and `MaxEvents = 0`. -/
theorem window_restart_admits_witness :
    workCalls (loopBody "dir" { MaxEvents := 0, EventTimeout := 5 * Second }
        { eventCount := 7, lastEventTime := { nsec := 0 } }
        (.event { Name := "dir/a", Op := Write } { nsec := 6 * Second })).effects = ["dir"] ∧
      (loopBody "dir" { MaxEvents := 0, EventTimeout := 5 * Second }
        { eventCount := 7, lastEventTime := { nsec := 0 } }
        (.event { Name := "dir/a", Op := Write } { nsec := 6 * Second })).state.eventCount = 1 ∧
      (loopBody "dir" { MaxEvents := 0, EventTimeout := 5 * Second }
        { eventCount := 7, lastEventTime := { nsec := 0 } }
        (.event { Name := "dir/a", Op := Write } { nsec := 6 * Second })).state.lastEventTime
          = { nsec := 6 * Second } :=
  window_restart_admits "dir" { MaxEvents := 0, EventTimeout := 5 * Second }
    { eventCount := 7, lastEventTime := { nsec := 0 } }
    { Name := "dir/a", Op := Write } { nsec := 6 * Second } (by decide) (by decide)

/-- C2 (suppression step). For every value of the loop variables, a
relevant event whose clock reading is at most `EventTimeout` after
`lastEventTime` and whose incremented count (`eventCount++`, which is
`eventCount + 1` below the top of the `int` range) exceeds `MaxEvents` is
suppressed: `WorkFunc` is not called, the incremented count is kept,
`lastEventTime` is unchanged, and the loop goes round again. -/
theorem suppression_step (dir : String) (config : DirectoryConfig) (st : GovernorState)
    (event : Event) (now : Time) (hrel : opSwitch event.Op = true)
    (hwin : now.Sub st.lastEventTime ≤ config.EventTimeout)
    (hover : intIncr st.eventCount > config.MaxEvents) :
    workCalls (loopBody dir config st (.event event now)).effects = [] ∧
      (loopBody dir config st (.event event now)).state.eventCount = intIncr st.eventCount ∧
      (-9223372036854775809 ≤ st.eventCount → st.eventCount < 9223372036854775807 →
        (loopBody dir config st (.event event now)).state.eventCount = st.eventCount + 1) ∧
      (loopBody dir config st (.event event now)).state.lastEventTime = st.lastEventTime ∧
      (loopBody dir config st (.event event now)).ctl = .loop := by
  rw [loopBody_over dir config st event now hrel hwin hover]
  exact ⟨rfl, rfl, fun hlo hhi => intIncr_of_lt _ hlo hhi, rfl, rfl⟩

/-- Witness of C2: the second `Write` of a burst, 1s after the first, with
`MaxEvents = 1` and a 5s window. -/
theorem suppression_step_witness :
    workCalls (loopBody "dir" { MaxEvents := 1, EventTimeout := 5 * Second }
        { eventCount := 1, lastEventTime := { nsec := 0 } }
        (.event { Name := "dir/a", Op := Write } { nsec := Second })).effects = [] ∧
      (loopBody "dir" { MaxEvents := 1, EventTimeout := 5 * Second }
        { eventCount := 1, lastEventTime := { nsec := 0 } }
        (.event { Name := "dir/a", Op := Write } { nsec := Second })).state.eventCount = 2 ∧
      (loopBody "dir" { MaxEvents := 1, EventTimeout := 5 * Second }
        { eventCount := 1, lastEventTime := { nsec := 0 } }
        (.event { Name := "dir/a", Op := Write } { nsec := Second })).state.lastEventTime
          = { nsec := 0 } ∧
      (loopBody "dir" { MaxEvents := 1, EventTimeout := 5 * Second }
        { eventCount := 1, lastEventTime := { nsec := 0 } }
        (.event { Name := "dir/a", Op := Write } { nsec := Second })).ctl = .loop :=
  have h := suppression_step "dir" { MaxEvents := 1, EventTimeout := 5 * Second }
    { eventCount := 1, lastEventTime := { nsec := 0 } }
    { Name := "dir/a", Op := Write } { nsec := Second } (by decide) (by decide) (by decide)
  ⟨h.1, h.2.1, h.2.2.2.1, h.2.2.2.2⟩

/-- C7 (kind filter). For every event whose operation mask has none of the
`Write`, `Create`, `Remove`, `Chmod` bits set, whatever the loop variables
and the clock reading, the turn calls `WorkFunc` not at all, performs no
effect, leaves `eventCount` and `lastEventTime` as they were and goes
round again. -/
theorem kind_filter_drops (dir : String) (config : DirectoryConfig) (st : GovernorState)
    (event : Event) (now : Time)
    (hkind : event.Op &&& (Write ||| Create ||| Remove ||| Chmod) = 0) :
    workCalls (loopBody dir config st (.event event now)).effects = [] ∧
      (loopBody dir config st (.event event now)).state = st ∧
      loopBody dir config st (.event event now) = { state := st, effects := [], ctl := .loop } := by
  rw [loopBody_dropped dir config st event now ((opSwitch_false_iff event.Op).mpr hkind)]
  exact ⟨rfl, rfl, rfl⟩

/-- Witness of C7: a pure `Rename` arriving long after the window ran out. -/
theorem kind_filter_drops_witness :
    workCalls (loopBody "dir" { MaxEvents := 1, EventTimeout := 5 * Second }
        { eventCount := 3, lastEventTime := { nsec := 0 } }
        (.event { Name := "dir/a", Op := Rename } { nsec := 60 * Second })).effects = [] ∧
      (loopBody "dir" { MaxEvents := 1, EventTimeout := 5 * Second }
        { eventCount := 3, lastEventTime := { nsec := 0 } }
        (.event { Name := "dir/a", Op := Rename } { nsec := 60 * Second })).state
          = { eventCount := 3, lastEventTime := { nsec := 0 } } ∧
      loopBody "dir" { MaxEvents := 1, EventTimeout := 5 * Second }
        { eventCount := 3, lastEventTime := { nsec := 0 } }
        (.event { Name := "dir/a", Op := Rename } { nsec := 60 * Second })
          = { state := { eventCount := 3, lastEventTime := { nsec := 0 } }, effects := [],
              ctl := .loop } :=
  kind_filter_drops "dir" { MaxEvents := 1, EventTimeout := 5 * Second }
    { eventCount := 3, lastEventTime := { nsec := 0 } }
    { Name := "dir/a", Op := Rename } { nsec := 60 * Second } (by decide)

/-! ## Contracts over a run -/

/-- C3 (gap restart over a whole run). In a run of relevant events with
non-decreasing clock readings, started from the initial loop variables, an
event that comes more than `EventTimeout` after the event just before it
(admitted or suppressed) is admitted and leaves `eventCount = 1`; and with
`MaxEvents = 1` two relevant events that far apart (5s in `RunTest`) both
call `WorkFunc`. -/
theorem gap_restart_over_run (dir : String) (config : DirectoryConfig) (start : Time)
    (pre : List (Event × Time)) (prev e : Event × Time)
    (hrel : ∀ p ∈ pre ++ [prev, e], opSwitch p.1.Op = true)
    (hord : List.Sorted (· ≤ ·) (start.nsec :: (pre ++ [prev, e]).map (fun p => p.2.nsec)))
    (hgap : e.2.Sub prev.2 > config.EventTimeout) :
    workCalls (loopBody dir config
        (runLoop dir config (initialState start) (eventInputs (pre ++ [prev]))).state
        (.event e.1 e.2)).effects = [dir] ∧
      (loopBody dir config
        (runLoop dir config (initialState start) (eventInputs (pre ++ [prev]))).state
        (.event e.1 e.2)).state.eventCount = 1 ∧
      (runLoop dir config (initialState start)
        (eventInputs (pre ++ [prev, e]))).state.eventCount = 1 ∧
      (pre = [] → config.MaxEvents = 1 →
        workCalls (runLoop dir config (initialState start)
          (eventInputs [prev, e])).effects = [dir, dir]) := by
  have hrele : opSwitch e.1.Op = true := hrel e (by simp)
  have hrelp : opSwitch prev.1.Op = true := hrel prev (by simp)
  simp only [List.Sorted, List.pairwise_cons, List.map_append, List.mem_append,
    List.pairwise_append, List.map_cons, List.map_nil, List.mem_cons, List.mem_map] at hord
  have hstart : start.nsec ≤ prev.2.nsec := hord.1 _ (Or.inr (Or.inl rfl))
  have hpre : ∀ p ∈ pre ++ [prev], p.2.nsec ≤ prev.2.nsec := by
    intro p hp
    rcases List.mem_append.mp hp with hp | hp
    · exact hord.2.2.2 _ ⟨p, hp, rfl⟩ _ (Or.inl rfl)
    · rw [List.mem_singleton.mp hp]
  have hbound := lastEventTime_le_bound dir config (pre ++ [prev]) (initialState start)
    prev.2.nsec hstart hpre
  have hgap2 : e.2.Sub
      (runLoop dir config (initialState start) (eventInputs (pre ++ [prev]))).state.lastEventTime
        > config.EventTimeout :=
    lt_of_lt_of_le hgap (Time.Sub_mono_right e.2 _ prev.2 hbound)
  have hstep := loopBody_restart dir config _ e.1 e.2 hrele hgap2
  refine ⟨by rw [hstep]; rfl, by rw [hstep], ?_, ?_⟩
  · have hsplit : eventInputs (pre ++ [prev, e]) =
        eventInputs (pre ++ [prev]) ++ [.event e.1 e.2] := by
      simp [eventInputs]
    rw [hsplit, runLoop_events_append, runLoop_event_cons, hstep]
    rfl
  · intro _ hmax
    have hfirst := loopBody_initial dir config start prev.1 prev.2 hrelp (by omega)
    have hsecond := loopBody_restart dir config { eventCount := 1, lastEventTime := prev.2 }
      e.1 e.2 hrele hgap
    have hinputs : eventInputs [prev, e] = [.event prev.1 prev.2, .event e.1 e.2] := rfl
    rw [hinputs, runLoop_event_cons, runLoop_event_cons, hfirst, hsecond]
    rfl

/-- Witness of C3: `MaxEvents = 1`, a 5s window, a `Write` at 1s and a
`Create` at 7s after a start at 0. -/
theorem gap_restart_over_run_witness :
    workCalls (loopBody "dir" { MaxEvents := 1, EventTimeout := 5 * Second }
        (runLoop "dir" { MaxEvents := 1, EventTimeout := 5 * Second }
          (initialState { nsec := 0 })
          (eventInputs ([] ++ [({ Name := "dir/a", Op := Write }, { nsec := Second })]))).state
        (.event { Name := "dir/b", Op := Create } { nsec := 7 * Second })).effects = ["dir"] ∧
      (loopBody "dir" { MaxEvents := 1, EventTimeout := 5 * Second }
        (runLoop "dir" { MaxEvents := 1, EventTimeout := 5 * Second }
          (initialState { nsec := 0 })
          (eventInputs ([] ++ [({ Name := "dir/a", Op := Write }, { nsec := Second })]))).state
        (.event { Name := "dir/b", Op := Create } { nsec := 7 * Second })).state.eventCount = 1 ∧
      (runLoop "dir" { MaxEvents := 1, EventTimeout := 5 * Second } (initialState { nsec := 0 })
        (eventInputs ([] ++ [({ Name := "dir/a", Op := Write }, { nsec := Second }),
          ({ Name := "dir/b", Op := Create }, { nsec := 7 * Second })]))).state.eventCount = 1 ∧
      workCalls (runLoop "dir" { MaxEvents := 1, EventTimeout := 5 * Second }
        (initialState { nsec := 0 })
        (eventInputs [({ Name := "dir/a", Op := Write }, { nsec := Second }),
          ({ Name := "dir/b", Op := Create }, { nsec := 7 * Second })])).effects
        = ["dir", "dir"] :=
  have h := gap_restart_over_run "dir" { MaxEvents := 1, EventTimeout := 5 * Second }
    { nsec := 0 } [] ({ Name := "dir/a", Op := Write }, { nsec := Second })
    ({ Name := "dir/b", Op := Create }, { nsec := 7 * Second })
    (by decide) (by decide) (by decide)
  ⟨h.1, h.2.1, h.2.2.1, h.2.2.2 rfl rfl⟩

/-- C4, the claim as stated fails: with `MaxEvents = 1` and a 5s window,
`Write` events at 0, 4s and 8s are in order, each less than 5s after the
one before, and the third is admitted, because it comes 8s after
`lastEventTime`, which the suppressed second event left at 0. -/
theorem burst_third_event_admitted :
    ({ nsec := 0 } : Time).nsec ≤ ({ nsec := 4 * Second } : Time).nsec ∧
      ({ nsec := 4 * Second } : Time).nsec ≤ ({ nsec := 8 * Second } : Time).nsec ∧
      Time.Sub { nsec := 4 * Second } { nsec := 0 } < 5 * Second ∧
      Time.Sub { nsec := 8 * Second } { nsec := 4 * Second } < 5 * Second ∧
      (loopTurns "dir" { MaxEvents := 1, EventTimeout := 5 * Second } (initialState { nsec := 0 })
        (eventInputs [({ Name := "dir/a", Op := Write }, { nsec := 0 }),
          ({ Name := "dir/a", Op := Write }, { nsec := 4 * Second }),
          ({ Name := "dir/a", Op := Write }, { nsec := 8 * Second })])).map
        (fun t => workCalls t.effects) = [["dir"], [], ["dir"]] := by
  decide

/-- C4 as amended (burst suppression). With `MaxEvents = 1` and a 5s
window, from the initial loop variables, of three relevant events the
second less than 5s after the first and the third at most 5s after the
first (the admitted one, where `lastEventTime` stays), the first is
admitted and the second and third are suppressed. -/
theorem burst_suppression_within_window (dir : String) (start : Time)
    (e1 e2 e3 : Event × Time)
    (hrel : ∀ p ∈ [e1, e2, e3], opSwitch p.1.Op = true)
    (h21 : e2.2.Sub e1.2 < 5 * Second) (h31 : e3.2.Sub e1.2 ≤ 5 * Second) :
    (loopTurns dir { MaxEvents := 1, EventTimeout := 5 * Second } (initialState start)
      (eventInputs [e1, e2, e3])).map (fun t => workCalls t.effects) = [[dir], [], []] := by
  have hr1 : opSwitch e1.1.Op = true := hrel e1 (by simp)
  have hr2 : opSwitch e2.1.Op = true := hrel e2 (by simp)
  have hr3 : opSwitch e3.1.Op = true := hrel e3 (by simp)
  have hinputs : eventInputs [e1, e2, e3] =
      [.event e1.1 e1.2, .event e2.1 e2.2, .event e3.1 e3.2] := rfl
  have htwo : intIncr 1 = 2 := by decide
  have hthree : intIncr 2 = 3 := by decide
  have hfirst := loopBody_initial dir { MaxEvents := 1, EventTimeout := 5 * Second } start
    e1.1 e1.2 hr1 (by decide)
  have hsecond := loopBody_over dir { MaxEvents := 1, EventTimeout := 5 * Second }
    { eventCount := 1, lastEventTime := e1.2 } e2.1 e2.2 hr2 (le_of_lt h21)
    (by show (1 : Int) < intIncr 1; rw [htwo]; decide)
  have hthird := loopBody_over dir { MaxEvents := 1, EventTimeout := 5 * Second }
    { eventCount := 2, lastEventTime := e1.2 } e3.1 e3.2 hr3 h31
    (by show (1 : Int) < intIncr 2; rw [hthree]; decide)
  rw [hinputs, loopTurns_event_cons, loopTurns_event_cons, loopTurns_event_cons, hfirst]
  simp only []
  rw [hsecond, htwo]
  simp only []
  rw [hthird]
  rfl

/-- Witness of amended C4: `Write` events at 0, 2s and 5s. -/
theorem burst_suppression_within_window_witness :
    (loopTurns "dir" { MaxEvents := 1, EventTimeout := 5 * Second } (initialState { nsec := 0 })
      (eventInputs [({ Name := "dir/a", Op := Write }, { nsec := 0 }),
        ({ Name := "dir/a", Op := Write }, { nsec := 2 * Second }),
        ({ Name := "dir/a", Op := Write }, { nsec := 5 * Second })])).map
      (fun t => workCalls t.effects) = [["dir"], [], []] :=
  burst_suppression_within_window "dir" { nsec := 0 }
    ({ Name := "dir/a", Op := Write }, { nsec := 0 })
    ({ Name := "dir/a", Op := Write }, { nsec := 2 * Second })
    ({ Name := "dir/a", Op := Write }, { nsec := 5 * Second })
    (by decide) (by decide) (by decide)

/-- While the count still has room for every event left, each relevant
event is admitted and becomes the anchor. -/
theorem sliding_from (dir : String) (config : DirectoryConfig) (evs : List (Event × Time))
    (st : GovernorState) (k : Int) (hrel : ∀ p ∈ evs, opSwitch p.1.Op = true)
    (hlo : -9223372036854775808 ≤ st.eventCount) (hk : st.eventCount ≤ k) (hk0 : 0 ≤ k)
    (hroom : k + evs.length ≤ config.MaxEvents) :
    (loopTurns dir config st (eventInputs evs)).map
      (fun t => (workCalls t.effects, t.state.lastEventTime)) = evs.map (fun p => ([dir], p.2)) := by
  induction evs generalizing st k with
  | nil => rfl
  | cons p evs ih =>
    have hcons : eventInputs (p :: evs) = .event p.1 p.2 :: eventInputs evs := rfl
    have hp : opSwitch p.1.Op = true := hrel p (List.mem_cons_self _ _)
    have hrest : ∀ q ∈ evs, opSwitch q.1.Op = true := fun q hq =>
      hrel q (List.mem_cons_of_mem _ hq)
    have hlen : k + 1 + (evs.length : Int) ≤ config.MaxEvents := by
      simp only [List.length_cons, Nat.cast_add, Nat.cast_one] at hroom
      omega
    have hpos : (0 : Int) ≤ evs.length := Int.ofNat_nonneg _
    rw [hcons, loopTurns_event_cons]
    by_cases hgap : p.2.Sub st.lastEventTime > config.EventTimeout
    · rw [loopBody_restart dir config st p.1 p.2 hp hgap]
      simp only [List.map_cons]
      rw [ih { eventCount := 1, lastEventTime := p.2 } (k + 1) hrest (by simp) (by simp; omega)
        (by omega) hlen]
      rfl
    · have hinc : intIncr st.eventCount ≤ st.eventCount + 1 :=
        wrapInt64_le_self _ (by omega)
      rw [loopBody_within dir config st p.1 p.2 hp (not_lt.mp hgap) (by omega)]
      simp only [List.map_cons]
      rw [ih { eventCount := intIncr st.eventCount, lastEventTime := p.2 } (k + 1) hrest
        (wrapInt64_lower _) (by simp; omega) (by omega) hlen]
      rfl

/-- C5 (sliding admission). When at most `MaxEvents` relevant events are
processed from the initial loop variables, every one of them is admitted
(`WorkFunc` called once, with the directory) and right after each
`lastEventTime` is that event's clock reading. -/
theorem sliding_admission (dir : String) (config : DirectoryConfig) (start : Time)
    (evs : List (Event × Time)) (hrel : ∀ p ∈ evs, opSwitch p.1.Op = true)
    (hlen : (evs.length : Int) ≤ config.MaxEvents) :
    (loopTurns dir config (initialState start) (eventInputs evs)).map
      (fun t => (workCalls t.effects, t.state.lastEventTime)) = evs.map (fun p => ([dir], p.2)) :=
  sliding_from dir config evs (initialState start) 0 hrel (by simp [initialState])
    (by simp [initialState]) (le_refl 0) (by omega)

/-- Witness of C5: `MaxEvents = 3`, a 5s window, three events within 2s. -/
theorem sliding_admission_witness :
    (loopTurns "dir" { MaxEvents := 3, EventTimeout := 5 * Second } (initialState { nsec := 0 })
      (eventInputs [({ Name := "dir/a", Op := Write }, { nsec := Second }),
        ({ Name := "dir/b", Op := Create }, { nsec := 2 * Second }),
        ({ Name := "dir/a", Op := Chmod }, { nsec := 3 * Second })])).map
      (fun t => (workCalls t.effects, t.state.lastEventTime)) =
      [(["dir"], { nsec := Second }), (["dir"], { nsec := 2 * Second }),
        (["dir"], { nsec := 3 * Second })] :=
  sliding_admission "dir" { MaxEvents := 3, EventTimeout := 5 * Second } { nsec := 0 }
    [({ Name := "dir/a", Op := Write }, { nsec := Second }),
      ({ Name := "dir/b", Op := Create }, { nsec := 2 * Second }),
      ({ Name := "dir/a", Op := Chmod }, { nsec := 3 * Second })]
    (by decide) (by decide)

/-- `Time.Sub` of two instants given by their offsets from a common
origin is the difference of the offsets, when that fits a `Duration`. -/
theorem Time.Sub_offsets (t0 a b : Int) (hlo : -9223372036854775808 ≤ a - b)
    (hhi : a - b ≤ 9223372036854775807) :
    Time.Sub { nsec := t0 + a } { nsec := t0 + b } = a - b := by
  rw [Time.Sub_of_fits]
  · show t0 + a - (t0 + b) = a - b
    omega
  · show minDuration ≤ t0 + a - (t0 + b)
    unfold minDuration Duration
    omega
  · show t0 + a - (t0 + b) ≤ maxDuration
    unfold maxDuration Duration
    omega

/-- C6 (end-to-end trace). With `MaxEvents = 2` and a 1s window, whenever
the governor was started, `Write` events at `t0`, `t0 + 0.2s`, `t0 + 0.4s`
and `t0 + 1.5s` (the claim's `t0 = 0`) are admitted with count 1, admitted
with count 2, suppressed with count 3 and `lastEventTime` still at
`t0 + 0.2s`, and admitted with the count back at 1; `WorkFunc` is called
exactly three times, for the first, second and fourth event. -/
theorem end_to_end_trace (dir : String) (start : Time) (t0 : Int) (n1 n2 n3 n4 : String) :
    (loopTurns dir { MaxEvents := 2, EventTimeout := Second } (initialState start)
      [.event { Name := n1, Op := Write } { nsec := t0 + 0 },
        .event { Name := n2, Op := Write } { nsec := t0 + 200 * Millisecond },
        .event { Name := n3, Op := Write } { nsec := t0 + 400 * Millisecond },
        .event { Name := n4, Op := Write } { nsec := t0 + 1500 * Millisecond }]).map
      (fun t => (workCalls t.effects, t.state.eventCount, t.state.lastEventTime)) =
      [([dir], 1, { nsec := t0 + 0 }), ([dir], 2, { nsec := t0 + 200 * Millisecond }),
        ([], 3, { nsec := t0 + 200 * Millisecond }),
        ([dir], 1, { nsec := t0 + 1500 * Millisecond })] ∧
      workCalls (runLoop dir { MaxEvents := 2, EventTimeout := Second } (initialState start)
        [.event { Name := n1, Op := Write } { nsec := t0 + 0 },
          .event { Name := n2, Op := Write } { nsec := t0 + 200 * Millisecond },
          .event { Name := n3, Op := Write } { nsec := t0 + 400 * Millisecond },
          .event { Name := n4, Op := Write } { nsec := t0 + 1500 * Millisecond }]).effects
        = [dir, dir, dir] := by
  have hw : opSwitch Write = true := by decide
  have htwo : intIncr 1 = 2 := by decide
  have hthree : intIncr 2 = 3 := by decide
  have hfirst := loopBody_initial dir { MaxEvents := 2, EventTimeout := Second } start
    { Name := n1, Op := Write } { nsec := t0 + 0 } hw (by decide)
  have hsecond := loopBody_within dir { MaxEvents := 2, EventTimeout := Second }
    { eventCount := 1, lastEventTime := { nsec := t0 + 0 } }
    { Name := n2, Op := Write } { nsec := t0 + 200 * Millisecond } hw
    (by rw [Time.Sub_offsets t0 _ _ (by decide) (by decide)]; decide)
    (by show intIncr 1 ≤ (2 : Int); rw [htwo])
  have hthird := loopBody_over dir { MaxEvents := 2, EventTimeout := Second }
    { eventCount := 2, lastEventTime := { nsec := t0 + 200 * Millisecond } }
    { Name := n3, Op := Write } { nsec := t0 + 400 * Millisecond } hw
    (by rw [Time.Sub_offsets t0 _ _ (by decide) (by decide)]; decide)
    (by show (2 : Int) < intIncr 2; rw [hthree]; decide)
  have hfourth := loopBody_restart dir { MaxEvents := 2, EventTimeout := Second }
    { eventCount := 3, lastEventTime := { nsec := t0 + 200 * Millisecond } }
    { Name := n4, Op := Write } { nsec := t0 + 1500 * Millisecond } hw
    (by rw [Time.Sub_offsets t0 _ _ (by decide) (by decide)]; decide)
  constructor
  · rw [loopTurns_event_cons, loopTurns_event_cons, loopTurns_event_cons, loopTurns_event_cons,
      hfirst]
    simp only []
    rw [hsecond, htwo]
    simp only []
    rw [hthird, hthree]
    simp only []
    rw [hfourth]
    rfl
  · rw [runLoop_event_cons, runLoop_event_cons, runLoop_event_cons, runLoop_event_cons, hfirst]
    simp only []
    rw [hsecond, htwo]
    simp only []
    rw [hthird, hthree]
    simp only []
    rw [hfourth]
    rfl

/-- The calls of `WorkFunc` over a run, from any loop variables: one per
admitted event, in order, each with the directory. -/
theorem workCalls_runLoop (dir : String) (config : DirectoryConfig) (inputs : List Input)
    (st : GovernorState) :
    workCalls (runLoop dir config st inputs).effects =
      (admittedEvents dir config st inputs).map (fun _ => dir) := by
  induction inputs generalizing st with
  | nil => rfl
  | cons i rest ih =>
    cases i with
    | event event now =>
      rw [runLoop_event_cons]
      simp only [workCalls_append, workCalls_loopBody, ih, admittedEvents]
      split_ifs <;> simp
    | eventsClosed =>
      rw [runLoop_cons_of_ret dir config st .eventsClosed rest rfl]
      rfl
    | error err =>
      rw [runLoop_cons_of_loop dir config st (.error err) rest rfl]
      simp only [workCalls_append, ih, admittedEvents]
      rfl
    | errorsClosed =>
      rw [runLoop_cons_of_ret dir config st .errorsClosed rest rfl]
      rfl

/-- C8 (callback argument and multiplicity). For every sequence of
received items and any loop variables, the calls of `WorkFunc` are exactly
one per admitted event, in event order, and the argument of each is the
watched directory `dir`, not the `Name` the event carries. -/
theorem callback_once_per_admitted_event (dir : String) (config : DirectoryConfig)
    (st : GovernorState) (inputs : List Input) :
    workCalls (runLoop dir config st inputs).effects =
        (admittedEvents dir config st inputs).map (fun _ => dir) ∧
      (workCalls (runLoop dir config st inputs).effects).length =
        (admittedEvents dir config st inputs).length ∧
      ∀ arg ∈ workCalls (runLoop dir config st inputs).effects, arg = dir := by
  rw [workCalls_runLoop]
  refine ⟨rfl, by simp, ?_⟩
  intro arg harg
  obtain ⟨_, _, h⟩ := List.mem_map.mp harg
  exact h.symm

/-- The last element of a list with a head, by its tail. -/
theorem getLast_cons_getD {α β : Type} (f : α → β) (x : α) (l : List α) (d : β) :
    (((x :: l).getLast?).map f).getD d = ((l.getLast?).map f).getD (f x) := by
  cases l with
  | nil => rfl
  | cons y l => rw [List.getLast?_cons_cons]; cases h : (y :: l).getLast? with
    | none => simp at h
    | some z => rfl

/-- The anchor after a run, from any loop variables: the clock reading of
the last admitted event, or the anchor the run began with. -/
theorem lastEventTime_runLoop (dir : String) (config : DirectoryConfig) (inputs : List Input)
    (st : GovernorState) :
    (runLoop dir config st inputs).state.lastEventTime =
      (((admittedEvents dir config st inputs).getLast?).map Prod.snd).getD st.lastEventTime := by
  induction inputs generalizing st with
  | nil => rfl
  | cons i rest ih =>
    cases i with
    | event event now =>
      rw [runLoop_event_cons]
      simp only [ih, admittedEvents, lastEventTime_loopBody_event]
      split_ifs
      · rw [getLast_cons_getD]
      · rfl
    | eventsClosed =>
      rw [runLoop_cons_of_ret dir config st .eventsClosed rest rfl]
      rfl
    | error err =>
      rw [runLoop_cons_of_loop dir config st (.error err) rest rfl]
      simp only [ih, admittedEvents]
      rfl
    | errorsClosed =>
      rw [runLoop_cons_of_ret dir config st .errorsClosed rest rfl]
      rfl

/-- C10 (window anchor). After any sequence of events, watcher errors and
closures processed from the initial loop variables, `lastEventTime` is the
clock reading of the most recent admitted event, or the start time when
none was admitted; and a turn for an item that is not admitted (a
suppressed or dropped event, a watcher error, a closure) leaves it as it
was. -/
theorem window_anchor (dir : String) (config : DirectoryConfig) (start : Time)
    (inputs : List Input) :
    (runLoop dir config (initialState start) inputs).state.lastEventTime =
        (((admittedEvents dir config (initialState start) inputs).getLast?).map
          Prod.snd).getD start ∧
      ∀ (st : GovernorState) (i : Input), admits config st i = false →
        (loopBody dir config st i).state.lastEventTime = st.lastEventTime := by
  refine ⟨lastEventTime_runLoop dir config inputs (initialState start), ?_⟩
  intro st i hno
  cases i with
  | event event now => rw [lastEventTime_loopBody_event, hno]; rfl
  | eventsClosed => rfl
  | error err => rfl
  | errorsClosed => rfl

/-- C9, the claim as stated fails: with `MaxEvents = 1` and a 5s window,
`Write` events at 0, 3s and 6s after a start at 0 are never more than 5s
apart, yet the third restarts the window: its count is 1, not 3, and it is
admitted although the count had exceeded `MaxEvents`. It comes 6s after
`lastEventTime`, which the suppressed second event left at 0. -/
theorem long_burst_restarts :
    Time.Sub { nsec := 0 } { nsec := 0 } ≤ 5 * Second ∧
      Time.Sub { nsec := 3 * Second } { nsec := 0 } ≤ 5 * Second ∧
      Time.Sub { nsec := 6 * Second } { nsec := 3 * Second } ≤ 5 * Second ∧
      (loopTurns "dir" { MaxEvents := 1, EventTimeout := 5 * Second } (initialState { nsec := 0 })
        (eventInputs [({ Name := "dir/a", Op := Write }, { nsec := 0 }),
          ({ Name := "dir/a", Op := Write }, { nsec := 3 * Second }),
          ({ Name := "dir/a", Op := Write }, { nsec := 6 * Second })])).map
        (fun t => (t.state.eventCount, workCalls t.effects)) =
        [(1, ["dir"]), (2, []), (1, ["dir"])] := by
  decide

/-- A run that stays in the window, from any loop variables whose count
leaves room below the top of the `int` range: the count grows by one on
every event, and an event is admitted exactly while the count is within
`MaxEvents`. -/
theorem one_window_from (dir : String) (config : DirectoryConfig) (evs : List (Event × Time))
    (c : Int) (anchor : Time) (hrel : ∀ p ∈ evs, opSwitch p.1.Op = true)
    (hlo : -9223372036854775809 ≤ c) (hhi : c + evs.length ≤ 9223372036854775807)
    (hwin : staysInWindow dir config { eventCount := c, lastEventTime := anchor } evs = true) :
    (loopTurns dir config { eventCount := c, lastEventTime := anchor } (eventInputs evs)).map
      (fun t => (t.state.eventCount, workCalls t.effects)) =
      (List.range evs.length).map
        (fun (i : Nat) => (c + (i : Int) + 1,
          if c + (i : Int) + 1 ≤ config.MaxEvents then [dir] else [])) := by
  induction evs generalizing c anchor with
  | nil => rfl
  | cons p evs ih =>
    have hcons : eventInputs (p :: evs) = .event p.1 p.2 :: eventInputs evs := rfl
    have hp : opSwitch p.1.Op = true := hrel p (List.mem_cons_self _ _)
    have hrest : ∀ q ∈ evs, opSwitch q.1.Op = true := fun q hq =>
      hrel q (List.mem_cons_of_mem _ hq)
    simp only [List.length_cons, Nat.cast_add, Nat.cast_one] at hhi
    have hpos : (0 : Int) ≤ evs.length := Int.ofNat_nonneg _
    have hinc : intIncr c = c + 1 := intIncr_of_lt c hlo (by omega)
    simp only [staysInWindow, Bool.and_eq_true, decide_eq_true_eq] at hwin
    obtain ⟨hin, hwin⟩ := hwin
    have hshift : (List.range (evs.length + 1)).map
          (fun (i : Nat) => (c + (i : Int) + 1,
            if c + (i : Int) + 1 ≤ config.MaxEvents then [dir] else [])) =
        (c + 1, if c + 1 ≤ config.MaxEvents then [dir] else []) ::
          (List.range evs.length).map
            (fun (i : Nat) => (c + 1 + (i : Int) + 1,
              if c + 1 + (i : Int) + 1 ≤ config.MaxEvents then [dir] else [])) := by
      rw [List.range_succ_eq_map, List.map_cons, List.map_map]
      congr 1
      · simp
      · apply List.map_congr_left
        intro i _
        have hi : c + ((Nat.succ i : Nat) : Int) + 1 = c + 1 + (i : Int) + 1 := by
          push_cast; ring
        simp only [Function.comp, hi]
    rw [hcons, loopTurns_event_cons, List.length_cons, hshift]
    by_cases hcount : intIncr c ≤ config.MaxEvents
    · rw [loopBody_within dir config { eventCount := c, lastEventTime := anchor } p.1 p.2 hp hin
        hcount] at hwin ⊢
      simp only [List.map_cons]
      rw [hinc] at hwin hcount ⊢
      rw [ih (c + 1) p.2 hrest (by omega) (by omega) hwin, if_pos hcount]
      rfl
    · rw [loopBody_over dir config { eventCount := c, lastEventTime := anchor } p.1 p.2 hp hin
        (not_le.mp hcount)] at hwin ⊢
      simp only [List.map_cons]
      rw [hinc] at hwin hcount ⊢
      rw [ih (c + 1) anchor hrest (by omega) (by omega) hwin, if_neg hcount]
      rfl

/-- C9 as amended (long burst in one window). In a run of relevant events
from the initial loop variables in which every event is received at most
`EventTimeout` after `lastEventTime` as it then stands (the most recent
admitted event, or the start), the window never restarts: the count after
the `i`-th event is `i`, one more on every event, and an event is admitted
exactly while that count is within `MaxEvents`, so once the count exceeds
`MaxEvents` every later event of the run is suppressed. The run is shorter
than the range of Go's `int`. -/
theorem long_burst_one_window (dir : String) (config : DirectoryConfig) (start : Time)
    (evs : List (Event × Time)) (hrel : ∀ p ∈ evs, opSwitch p.1.Op = true)
    (hlen : (evs.length : Int) ≤ 9223372036854775807)
    (hwin : staysInWindow dir config (initialState start) evs = true) :
    (loopTurns dir config (initialState start) (eventInputs evs)).map
      (fun t => (t.state.eventCount, workCalls t.effects)) =
      (List.range evs.length).map
        (fun (i : Nat) => ((i : Int) + 1, if (i : Int) + 1 ≤ config.MaxEvents then [dir] else [])) := by
  have h := one_window_from dir config evs 0 start hrel (by decide) (by omega) hwin
  simpa [initialState] using h

/-- Witness of amended C9: `MaxEvents = 3`, a 5s window, events at 0, 3s,
6s, 9s and 11s. The run lasts 11s; the first three are admitted and move
the anchor to 6s, the last two are suppressed. -/
theorem long_burst_one_window_witness :
    (loopTurns "dir" { MaxEvents := 3, EventTimeout := 5 * Second } (initialState { nsec := 0 })
      (eventInputs [({ Name := "dir/a", Op := Write }, { nsec := 0 }),
        ({ Name := "dir/a", Op := Write }, { nsec := 3 * Second }),
        ({ Name := "dir/a", Op := Write }, { nsec := 6 * Second }),
        ({ Name := "dir/a", Op := Write }, { nsec := 9 * Second }),
        ({ Name := "dir/a", Op := Write }, { nsec := 11 * Second })])).map
      (fun t => (t.state.eventCount, workCalls t.effects)) =
      [(1, ["dir"]), (2, ["dir"]), (3, ["dir"]), (4, []), (5, [])] :=
  long_burst_one_window "dir" { MaxEvents := 3, EventTimeout := 5 * Second } { nsec := 0 }
    [({ Name := "dir/a", Op := Write }, { nsec := 0 }),
      ({ Name := "dir/a", Op := Write }, { nsec := 3 * Second }),
      ({ Name := "dir/a", Op := Write }, { nsec := 6 * Second }),
      ({ Name := "dir/a", Op := Write }, { nsec := 9 * Second }),
      ({ Name := "dir/a", Op := Write }, { nsec := 11 * Second })]
    (by decide) (by decide) (by decide)

/-! ## Errors, closures and the first event -/

/-- A run followed by further items, when the run has not returned. -/
theorem runLoop_append_of_loop (dir : String) (config : DirectoryConfig) (a b : List Input)
    (st : GovernorState) (h : (runLoop dir config st a).ctl = .loop) :
    runLoop dir config st (a ++ b) =
      { state := (runLoop dir config (runLoop dir config st a).state b).state
        effects := (runLoop dir config st a).effects ++
          (runLoop dir config (runLoop dir config st a).state b).effects
        ctl := (runLoop dir config (runLoop dir config st a).state b).ctl } := by
  induction a generalizing st with
  | nil => simp [runLoop]
  | cons i a ih =>
    cases hctl : (loopBody dir config st i).ctl with
    | loop =>
      rw [runLoop_cons_of_loop dir config st i a hctl] at h ⊢
      rw [List.cons_append, runLoop_cons_of_loop dir config st i (a ++ b) hctl, ih _ h]
      simp
    | ret =>
      rw [runLoop_cons_of_ret dir config st i a hctl, hctl] at h
      cases h

/-- Nothing is received after a run that has returned. -/
theorem runLoop_append_of_ret (dir : String) (config : DirectoryConfig) (a b : List Input)
    (st : GovernorState) (h : (runLoop dir config st a).ctl = .ret) :
    runLoop dir config st (a ++ b) = runLoop dir config st a := by
  induction a generalizing st with
  | nil => simp [runLoop] at h
  | cons i a ih =>
    cases hctl : (loopBody dir config st i).ctl with
    | loop =>
      rw [runLoop_cons_of_loop dir config st i a hctl] at h ⊢
      rw [List.cons_append, runLoop_cons_of_loop dir config st i (a ++ b) hctl, ih _ h]
    | ret =>
      rw [List.cons_append, runLoop_cons_of_ret dir config st i a hctl,
        runLoop_cons_of_ret dir config st i (a ++ b) hctl]

/-- Watcher errors and events that fail the kind filter leave the loop
variables alone, call nothing and keep the loop going. -/
theorem runLoop_inert (dir : String) (config : DirectoryConfig) (pre : List Input)
    (st : GovernorState)
    (hpre : ∀ i ∈ pre, inert i = true) :
    (runLoop dir config st pre).state = st ∧ (runLoop dir config st pre).ctl = .loop ∧
      workCalls (runLoop dir config st pre).effects = [] := by
  induction pre with
  | nil => exact ⟨rfl, rfl, rfl⟩
  | cons i pre ih =>
    have hrest := ih (fun j hj => hpre j (List.mem_cons_of_mem _ hj))
    have hi := hpre i (List.mem_cons_self _ _)
    cases i with
    | eventsClosed => simp [inert] at hi
    | errorsClosed => simp [inert] at hi
    | error err =>
      rw [runLoop_cons_of_loop dir config st (.error err) pre rfl]
      have hstate : (loopBody dir config st (.error err)).state = st := rfl
      rw [hstate]
      refine ⟨hrest.1, hrest.2.1, ?_⟩
      rw [workCalls_append, hrest.2.2]
      rfl
    | event ev t =>
      have hdrop : opSwitch ev.Op = false := by simpa [inert] using hi
      rw [runLoop_event_cons, loopBody_dropped dir config st ev t hdrop]
      refine ⟨hrest.1, hrest.2.1, ?_⟩
      rw [workCalls_append, hrest.2.2]
      rfl

/-- C11 (first event of a session). With `MaxEvents` at least 1, the first
relevant event after the start, whatever watcher errors and filtered-out
events come before it, is admitted (`WorkFunc` called once) and leaves
`eventCount = 1` and `lastEventTime` at its clock reading, whether it
comes within `EventTimeout` of the start (the count goes from 0 to 1) or
later (the window restarts). -/
theorem first_event_admitted (dir : String) (config : DirectoryConfig) (start : Time)
    (pre : List Input) (event : Event) (now : Time) (hmax : 1 ≤ config.MaxEvents)
    (hrel : opSwitch event.Op = true)
    (hpre : ∀ i ∈ pre, inert i = true) :
    workCalls (runLoop dir config (initialState start) (pre ++ [.event event now])).effects
        = [dir] ∧
      (runLoop dir config (initialState start) (pre ++ [.event event now])).state =
        { eventCount := 1, lastEventTime := now } ∧
      loopBody dir config (runLoop dir config (initialState start) pre).state
          (.event event now) =
        { state := { eventCount := 1, lastEventTime := now }
          effects := [.log (.fileEvent event.Op event.Name dir), .work dir]
          ctl := .loop } := by
  obtain ⟨hstate, hctl, hcalls⟩ := runLoop_inert dir config pre (initialState start) hpre
  have hstep := loopBody_initial dir config start event now hrel hmax
  rw [runLoop_append_of_loop dir config pre _ _ hctl, hstate, runLoop_event_cons, hstep]
  refine ⟨?_, rfl, rfl⟩
  simp only [workCalls_append, hcalls]
  rfl

/-- Witness of C11: after a watcher error and a `Rename`, a `Write` 9s
after the start, with `MaxEvents = 1` and a 5s window. -/
theorem first_event_admitted_witness :
    workCalls (runLoop "dir" { MaxEvents := 1, EventTimeout := 5 * Second }
        (initialState { nsec := 0 })
        ([.error "overflow", .event { Name := "dir/a", Op := Rename } { nsec := Second }] ++
          [.event { Name := "dir/a", Op := Write } { nsec := 9 * Second }])).effects
        = ["dir"] ∧
      (runLoop "dir" { MaxEvents := 1, EventTimeout := 5 * Second }
        (initialState { nsec := 0 })
        ([.error "overflow", .event { Name := "dir/a", Op := Rename } { nsec := Second }] ++
          [.event { Name := "dir/a", Op := Write } { nsec := 9 * Second }])).state =
        { eventCount := 1, lastEventTime := { nsec := 9 * Second } } :=
  have h := first_event_admitted "dir" { MaxEvents := 1, EventTimeout := 5 * Second }
    { nsec := 0 } [.error "overflow", .event { Name := "dir/a", Op := Rename } { nsec := Second }]
    { Name := "dir/a", Op := Write } { nsec := 9 * Second } (by decide) (by decide)
    (by decide)
  ⟨h.1, h.2.1⟩

/-- The admitted events of a run that begins with an event. -/
theorem admittedEvents_event_cons (dir : String) (config : DirectoryConfig)
    (st : GovernorState) (event : Event) (now : Time) (rest : List Input) :
    admittedEvents dir config st (.event event now :: rest) =
      if admits config st (.event event now) then
        (event, now) ::
          admittedEvents dir config (loopBody dir config st (.event event now)).state rest
      else admittedEvents dir config (loopBody dir config st (.event event now)).state rest :=
  rfl

/-- The admitted events of a run that begins with a watcher error. -/
theorem admittedEvents_error_cons (dir : String) (config : DirectoryConfig)
    (st : GovernorState) (err : String) (rest : List Input) :
    admittedEvents dir config st (.error err :: rest) = admittedEvents dir config st rest :=
  rfl

/-- A watcher error anywhere in a run changes neither the loop variables
at the end, nor whether the loop has returned, nor the calls of
`WorkFunc`, nor which events are admitted. -/
theorem runLoop_skip_error (dir : String) (config : DirectoryConfig) (err : String)
    (pre rest : List Input) (st : GovernorState) :
    (runLoop dir config st (pre ++ .error err :: rest)).state =
        (runLoop dir config st (pre ++ rest)).state ∧
      (runLoop dir config st (pre ++ .error err :: rest)).ctl =
        (runLoop dir config st (pre ++ rest)).ctl ∧
      workCalls (runLoop dir config st (pre ++ .error err :: rest)).effects =
        workCalls (runLoop dir config st (pre ++ rest)).effects ∧
      admittedEvents dir config st (pre ++ .error err :: rest) =
        admittedEvents dir config st (pre ++ rest) := by
  induction pre generalizing st with
  | nil =>
    rw [List.nil_append, List.nil_append,
      runLoop_cons_of_loop dir config st (.error err) rest rfl]
    have hstate : (loopBody dir config st (.error err)).state = st := rfl
    rw [hstate]
    refine ⟨rfl, rfl, ?_, ?_⟩
    · rw [workCalls_append]
      rfl
    · simp only [admittedEvents, hstate]
  | cons i pre ih =>
    cases i with
    | event event now =>
      obtain ⟨h1, h2, h3, h4⟩ := ih (loopBody dir config st (.event event now)).state
      rw [List.cons_append, List.cons_append, runLoop_event_cons, runLoop_event_cons,
        admittedEvents_event_cons, admittedEvents_event_cons, h4]
      refine ⟨h1, h2, ?_, rfl⟩
      simp only [workCalls_append, h3]
    | error err2 =>
      obtain ⟨h1, h2, h3, h4⟩ := ih st
      have hstate : (loopBody dir config st (.error err2)).state = st := rfl
      rw [List.cons_append, List.cons_append,
        runLoop_cons_of_loop dir config st (.error err2) _ rfl,
        runLoop_cons_of_loop dir config st (.error err2) _ rfl,
        admittedEvents_error_cons, admittedEvents_error_cons, hstate]
      refine ⟨h1, h2, ?_, h4⟩
      simp only [workCalls_append, h3]
    | eventsClosed =>
      rw [List.cons_append, List.cons_append,
        runLoop_cons_of_ret dir config st .eventsClosed _ rfl,
        runLoop_cons_of_ret dir config st .eventsClosed _ rfl]
      exact ⟨rfl, rfl, rfl, rfl⟩
    | errorsClosed =>
      rw [List.cons_append, List.cons_append,
        runLoop_cons_of_ret dir config st .errorsClosed _ rfl,
        runLoop_cons_of_ret dir config st .errorsClosed _ rfl]
      exact ⟨rfl, rfl, rfl, rfl⟩

/-- C12 (transport errors are inert). For every value of the loop
variables, the turn for an item of `watcher.Errors` logs it, leaves
`eventCount` and `lastEventTime` unchanged, calls `WorkFunc` not at all and
goes round again; and a run with the error delivered ends with the same
loop variables, makes the same calls and admits the same events as the run
without it. -/
theorem transport_error_inert (dir : String) (config : DirectoryConfig) (st : GovernorState)
    (err : String) (pre rest : List Input) :
    loopBody dir config st (.error err) =
        { state := st, effects := [.log (.watcherError err)], ctl := .loop } ∧
      workCalls (loopBody dir config st (.error err)).effects = [] ∧
      (runLoop dir config st (pre ++ .error err :: rest)).state =
        (runLoop dir config st (pre ++ rest)).state ∧
      (runLoop dir config st (pre ++ .error err :: rest)).ctl =
        (runLoop dir config st (pre ++ rest)).ctl ∧
      workCalls (runLoop dir config st (pre ++ .error err :: rest)).effects =
        workCalls (runLoop dir config st (pre ++ rest)).effects ∧
      admittedEvents dir config st (pre ++ .error err :: rest) =
        admittedEvents dir config st (pre ++ rest) :=
  ⟨rfl, rfl, runLoop_skip_error dir config err pre rest st⟩

/-- C15, the claim as stated fails: after the closure of `watcher.Errors`
has been received, a `Write` that would have been admitted is not
processed at all (no call, the count stays 0), and after the closure of
`watcher.Events` a watcher error is not logged; the goroutine has
returned. -/
theorem closed_channel_stops_processing :
    runLoop "dir" { MaxEvents := 1, EventTimeout := 5 * Second } (initialState { nsec := 0 })
        [.errorsClosed, .event { Name := "dir/a", Op := Write } { nsec := Second }] =
        { state := initialState { nsec := 0 }, effects := [], ctl := .ret } ∧
      workCalls (runLoop "dir" { MaxEvents := 1, EventTimeout := 5 * Second }
        (initialState { nsec := 0 })
        [.event { Name := "dir/a", Op := Write } { nsec := Second }]).effects = ["dir"] ∧
      runLoop "dir" { MaxEvents := 1, EventTimeout := 5 * Second } (initialState { nsec := 0 })
        [.eventsClosed, .error "overflow"] =
        { state := initialState { nsec := 0 }, effects := [], ctl := .ret } ∧
      (runLoop "dir" { MaxEvents := 1, EventTimeout := 5 * Second } (initialState { nsec := 0 })
        [.error "overflow"]).effects = [.log (.watcherError "overflow")] := by
  decide

/-- C15 as amended (closure). Once the loop receives the closure of either
`watcher.Events` or `watcher.Errors`, the goroutine returns: the turn
performs no effect and leaves the loop variables as they were, and no item
that comes after it, event or error, is processed. -/
theorem closure_ends_loop (dir : String) (config : DirectoryConfig) (st : GovernorState)
    (pre rest : List Input) :
    loopBody dir config st .eventsClosed = { state := st, effects := [], ctl := .ret } ∧
      loopBody dir config st .errorsClosed = { state := st, effects := [], ctl := .ret } ∧
      (runLoop dir config st (pre ++ .eventsClosed :: rest)).ctl = .ret ∧
      (runLoop dir config st (pre ++ .errorsClosed :: rest)).ctl = .ret ∧
      runLoop dir config st (pre ++ .eventsClosed :: rest) =
        runLoop dir config st (pre ++ [.eventsClosed]) ∧
      runLoop dir config st (pre ++ .errorsClosed :: rest) =
        runLoop dir config st (pre ++ [.errorsClosed]) := by
  have hkey : ∀ (c : Input), (loopBody dir config (runLoop dir config st pre).state c).ctl = .ret →
      (runLoop dir config st (pre ++ c :: rest)).ctl = .ret ∧
        runLoop dir config st (pre ++ c :: rest) = runLoop dir config st (pre ++ [c]) := by
    intro c hc
    cases hpre : (runLoop dir config st pre).ctl with
    | loop =>
      rw [runLoop_append_of_loop dir config pre _ st hpre,
        runLoop_append_of_loop dir config pre _ st hpre,
        runLoop_cons_of_ret dir config _ c rest hc, runLoop_cons_of_ret dir config _ c [] hc]
      exact ⟨hc, rfl⟩
    | ret =>
      rw [runLoop_append_of_ret dir config pre _ st hpre,
        runLoop_append_of_ret dir config pre _ st hpre]
      exact ⟨hpre, rfl⟩
  exact ⟨rfl, rfl, (hkey .eventsClosed rfl).1, (hkey .errorsClosed rfl).1,
    (hkey .eventsClosed rfl).2, (hkey .errorsClosed rfl).2⟩

/-! ## The start operation -/

/-- C13 (set-up failure). When `os.Stat` reports that the path does not
exist, `ProcessDirectoryChanges` returns the directory-missing error at
once: no watcher is created, the goroutine is not started, and so
`WorkFunc` is never called. -/
theorem missing_directory_fails (world : World) (dir : String) (config : DirectoryConfig)
    (start : Time) (inputs : List Input) (hstat : world.stat dir = .notExist) :
    ProcessDirectoryChanges world dir config start inputs =
        { outcome := .failed (.directoryMissing dir), setup := [], loop := none } ∧
      (ProcessDirectoryChanges world dir config start inputs).setup = [] ∧
      (ProcessDirectoryChanges world dir config start inputs).loop = none := by
  have h : ProcessDirectoryChanges world dir config start inputs =
      { outcome := .failed (.directoryMissing dir), setup := [], loop := none } := by
    simp only [ProcessDirectoryChanges, hstat]
  rw [h]
  exact ⟨rfl, rfl, rfl⟩

/-- Witness of C13: a world in which no path exists, and events waiting. -/
theorem missing_directory_fails_witness :
    ProcessDirectoryChanges
        { stat := fun _ => .notExist, newWatcher := none, add := fun _ => none }
        "nowhere" { MaxEvents := 1, EventTimeout := 5 * Second } { nsec := 0 }
        [.event { Name := "nowhere/a", Op := Write } { nsec := Second }] =
        { outcome := .failed (.directoryMissing "nowhere"), setup := [], loop := none } :=
  (missing_directory_fails
    { stat := fun _ => .notExist, newWatcher := none, add := fun _ => none }
    "nowhere" { MaxEvents := 1, EventTimeout := 5 * Second } { nsec := 0 }
    [.event { Name := "nowhere/a", Op := Write } { nsec := Second }] rfl).1

/-- C14, the claim as stated fails: for a path that `os.Stat` finds and
that is a regular file, with a watcher that accepts it, the start
operation creates the watcher, registers the path, starts the loop and
does not return an error; a `Write` then received is admitted. -/
theorem regular_file_is_watched :
    ProcessDirectoryChanges
        { stat := fun _ => .found false, newWatcher := none, add := fun _ => none }
        "notes.txt" { MaxEvents := 1, EventTimeout := 5 * Second } { nsec := 0 }
        [.event { Name := "notes.txt", Op := Write } { nsec := Second }] =
      { outcome := .blocked
        setup := [.watcherCreated, .pathAdded "notes.txt", .logWatching "notes.txt"]
        loop := some
          { state := { eventCount := 1, lastEventTime := { nsec := Second } }
            effects := [.log (.fileEvent Write "notes.txt" "notes.txt"), .work "notes.txt"]
            ctl := .loop } } := by
  decide

/-- C14 as amended (path validation). Before subscribing the start
operation checks only that the path exists. For a path that `os.Stat`
finds, directory or not, it fails exactly when creating the watcher or
registering the path fails, with that error; otherwise it creates the
watcher, registers the path and starts the loop from the initial loop
variables. -/
theorem existing_path_not_validated (world : World) (dir : String)
    (config : DirectoryConfig) (start : Time) (inputs : List Input) (isDir : Bool)
    (hstat : world.stat dir = .found isDir) :
    ProcessDirectoryChanges world dir config start inputs =
      match world.newWatcher with
      | some err => { outcome := .failed (.createWatcher err), setup := [], loop := none }
      | none =>
        match world.add dir with
        | some err =>
          { outcome := .failed (.addDirectory err)
            setup := [.watcherCreated, .watcherClosed]
            loop := none }
        | none =>
          { outcome := .blocked
            setup := [.watcherCreated, .pathAdded dir, .logWatching dir]
            loop := some (runLoop dir config (initialState start) inputs) } := by
  simp only [ProcessDirectoryChanges, hstat]

/-- Witness of amended C14: a regular file and a watcher that refuses it. -/
theorem existing_path_not_validated_witness :
    ProcessDirectoryChanges
        { stat := fun _ => .found false, newWatcher := none
          add := fun _ => some "not a directory" }
        "notes.txt" { MaxEvents := 1, EventTimeout := 5 * Second } { nsec := 0 } [] =
      { outcome := .failed (.addDirectory "not a directory")
        setup := [.watcherCreated, .watcherClosed]
        loop := none } :=
  existing_path_not_validated
    { stat := fun _ => .found false, newWatcher := none
      add := fun _ => some "not a directory" }
    "notes.txt" { MaxEvents := 1, EventTimeout := 5 * Second } { nsec := 0 } [] false rfl

/-! ## Admission and the post-step count; the reported time remaining -/

/-- C17 (admission is decided by the post-step count). For a relevant
event and any loop variables: with `MaxEvents` at least 1 the event is
admitted exactly when the count it leaves is at most `MaxEvents`, and
suppressed exactly when that count exceeds `MaxEvents`; with `MaxEvents`
at most 0 the equivalence fails, since an event more than `EventTimeout`
after `lastEventTime` is admitted and leaves the count 1. -/
theorem admission_by_count (dir : String) (config : DirectoryConfig) (st : GovernorState)
    (event : Event) (now : Time) (hrel : opSwitch event.Op = true) :
    (1 ≤ config.MaxEvents →
        (workCalls (loopBody dir config st (.event event now)).effects = [dir] ↔
          (loopBody dir config st (.event event now)).state.eventCount ≤ config.MaxEvents) ∧
        (workCalls (loopBody dir config st (.event event now)).effects = [] ↔
          config.MaxEvents < (loopBody dir config st (.event event now)).state.eventCount)) ∧
      (config.MaxEvents ≤ 0 → now.Sub st.lastEventTime > config.EventTimeout →
        workCalls (loopBody dir config st (.event event now)).effects = [dir] ∧
          (loopBody dir config st (.event event now)).state.eventCount = 1 ∧
          ¬ (loopBody dir config st (.event event now)).state.eventCount ≤ config.MaxEvents) := by
  constructor
  · intro hmax
    by_cases hgap : now.Sub st.lastEventTime > config.EventTimeout
    · rw [loopBody_restart dir config st event now hrel hgap]
      simp only [workCalls]
      constructor
      · exact ⟨fun _ => hmax, fun _ => trivial⟩
      · constructor
        · intro h; cases h
        · intro h; omega
    · by_cases hcount : intIncr st.eventCount ≤ config.MaxEvents
      · rw [loopBody_within dir config st event now hrel (not_lt.mp hgap) hcount]
        simp only [workCalls]
        constructor
        · exact ⟨fun _ => hcount, fun _ => trivial⟩
        · constructor
          · intro h; cases h
          · intro h; omega
      · rw [loopBody_over dir config st event now hrel (not_lt.mp hgap) (not_le.mp hcount)]
        simp only [workCalls]
        constructor
        · constructor
          · intro h; cases h
          · intro h; exact absurd h hcount
        · exact ⟨fun _ => not_le.mp hcount, fun _ => trivial⟩
  · intro hmax hgap
    rw [loopBody_restart dir config st event now hrel hgap]
    refine ⟨rfl, rfl, ?_⟩
    show ¬ (1 : Int) ≤ config.MaxEvents
    omega

/-- Witness of C17: with `MaxEvents = 1`, a second `Write` inside the
window is suppressed and leaves the count 2; with `MaxEvents = 0`, a
`Write` after the window has run out is admitted and leaves the count 1. -/
theorem admission_by_count_witness :
    (workCalls (loopBody "dir" { MaxEvents := 1, EventTimeout := 5 * Second }
        { eventCount := 1, lastEventTime := { nsec := 0 } }
        (.event { Name := "dir/a", Op := Write } { nsec := Second })).effects = [] ↔
      (1 : Int) < (loopBody "dir" { MaxEvents := 1, EventTimeout := 5 * Second }
        { eventCount := 1, lastEventTime := { nsec := 0 } }
        (.event { Name := "dir/a", Op := Write } { nsec := Second })).state.eventCount) ∧
      (workCalls (loopBody "dir" { MaxEvents := 0, EventTimeout := 5 * Second }
        { eventCount := 4, lastEventTime := { nsec := 0 } }
        (.event { Name := "dir/a", Op := Write } { nsec := 6 * Second })).effects = ["dir"] ∧
      (loopBody "dir" { MaxEvents := 0, EventTimeout := 5 * Second }
        { eventCount := 4, lastEventTime := { nsec := 0 } }
        (.event { Name := "dir/a", Op := Write } { nsec := 6 * Second })).state.eventCount = 1) :=
  ⟨((admission_by_count "dir" { MaxEvents := 1, EventTimeout := 5 * Second }
      { eventCount := 1, lastEventTime := { nsec := 0 } }
      { Name := "dir/a", Op := Write } { nsec := Second } (by decide)).1 (by decide)).2,
    ⟨((admission_by_count "dir" { MaxEvents := 0, EventTimeout := 5 * Second }
      { eventCount := 4, lastEventTime := { nsec := 0 } }
      { Name := "dir/a", Op := Write } { nsec := 6 * Second } (by decide)).2
        (by decide) (by decide)).1,
    ((admission_by_count "dir" { MaxEvents := 0, EventTimeout := 5 * Second }
      { eventCount := 4, lastEventTime := { nsec := 0 } }
      { Name := "dir/a", Op := Write } { nsec := 6 * Second } (by decide)).2
        (by decide) (by decide)).2.1⟩⟩

/-- `Time.Sub` of a later instant from an earlier one is not negative. -/
theorem Time.Sub_nonneg (t u : Time) (h : u.nsec ≤ t.nsec) : 0 ≤ t.Sub u := by
  unfold Time.Sub minDuration maxDuration Duration
  split_ifs <;> omega

/-- The remainder of Go's `%` lies between zero and the dividend. -/
theorem tmod_second_between (d : Int) :
    (0 ≤ d → 0 ≤ Int.tmod d 1000000000 ∧ Int.tmod d 1000000000 ≤ d) ∧
      (d ≤ 0 → d ≤ Int.tmod d 1000000000 ∧ Int.tmod d 1000000000 ≤ 0) := by
  constructor
  · intro h
    rw [Int.tmod_eq_emod h (by decide)]
    omega
  · intro h
    have hneg : Int.tmod d 1000000000 = -Int.tmod (-d) 1000000000 := by
      rw [Int.tmod_def, Int.tmod_def, Int.neg_tdiv]
      ring
    rw [hneg, Int.tmod_eq_emod (by omega) (by decide)]
    omega

/-- `Truncate(time.Second)` of a duration is the whole number of seconds
in it, rounded toward zero, times a second. -/
theorem Duration.Truncate_second (d : Duration) (hlo : -9223372036854775808 ≤ d)
    (hhi : d ≤ 9223372036854775807) :
    Duration.Truncate d Second = Second * Int.tdiv d Second := by
  have hkey := Int.tdiv_add_tmod d 1000000000
  have hbetween := tmod_second_between d
  unfold Duration.Truncate Second Duration at *
  rw [if_neg (by decide), wrapInt64_of_fits _ (by omega) (by omega)]
  omega

/-- The value of `remainingTime` reaches the log records only: whatever
stands in its place, the loop variables, the way the turn ends and the
calls of `WorkFunc` are those of `loopBody`. -/
theorem loopBodyReporting_same (report : Duration) (dir : String) (config : DirectoryConfig)
    (st : GovernorState) (i : Input) :
    (loopBodyReporting report dir config st i).state = (loopBody dir config st i).state ∧
      (loopBodyReporting report dir config st i).ctl = (loopBody dir config st i).ctl ∧
      workCalls (loopBodyReporting report dir config st i).effects =
        workCalls (loopBody dir config st i).effects := by
  cases i with
  | event event now =>
    simp only [loopBodyReporting, loopBody]
    split_ifs <;> exact ⟨rfl, rfl, rfl⟩
  | eventsClosed => exact ⟨rfl, rfl, rfl⟩
  | error err => exact ⟨rfl, rfl, rfl⟩
  | errorsClosed => exact ⟨rfl, rfl, rfl⟩

/-- A suppression record, debug or info, is written only by the turn of a
relevant event inside the window whose incremented count exceeds
`MaxEvents`, and the time remaining it carries is that turn's truncated
difference. -/
theorem suppression_record_origin (dir : String) (config : DirectoryConfig)
    (st : GovernorState) (i : Input) (record : LogRecord) (r : Duration)
    (hrec : Effect.log record ∈ (loopBody dir config st i).effects)
    (hr : record.remaining = some r) :
    ∃ event cur, i = .event event cur ∧ opSwitch event.Op = true ∧
      cur.Sub st.lastEventTime ≤ config.EventTimeout ∧
      config.MaxEvents < intIncr st.eventCount ∧
      r = Duration.Truncate
        (Duration.sub config.EventTimeout (cur.Sub st.lastEventTime)) Second := by
  cases i with
  | event event now =>
    by_cases hrel : opSwitch event.Op = true
    · by_cases hgap : now.Sub st.lastEventTime > config.EventTimeout
      · rw [loopBody_restart dir config st event now hrel hgap] at hrec
        simp only [List.mem_cons, Effect.log.injEq, reduceCtorEq, List.mem_singleton,
          or_false, List.not_mem_nil] at hrec
        subst hrec
        simp [LogRecord.remaining] at hr
      · by_cases hcount : intIncr st.eventCount ≤ config.MaxEvents
        · rw [loopBody_within dir config st event now hrel (not_lt.mp hgap) hcount] at hrec
          simp only [List.mem_cons, Effect.log.injEq, reduceCtorEq, List.mem_singleton,
            or_false, List.not_mem_nil] at hrec
          subst hrec
          simp [LogRecord.remaining] at hr
        · rw [loopBody_over dir config st event now hrel (not_lt.mp hgap)
            (not_le.mp hcount)] at hrec
          refine ⟨event, now, rfl, hrel, not_lt.mp hgap, not_le.mp hcount, ?_⟩
          simp only [List.mem_cons, Effect.log.injEq, List.mem_singleton, or_false,
            List.not_mem_nil] at hrec
          rcases hrec with hrec | hrec
          · subst hrec
            simpa [LogRecord.remaining] using hr.symm
          · subst hrec
            simpa [LogRecord.remaining] using hr.symm
    · rw [loopBody_dropped dir config st event now (by simpa using hrel)] at hrec
      simp at hrec
  | eventsClosed => simp [loopBody] at hrec
  | error err =>
    simp only [loopBody, List.mem_singleton, Effect.log.injEq] at hrec
    subst hrec
    simp [LogRecord.remaining] at hr
  | errorsClosed => simp [loopBody] at hrec

/-- C18 (reported time remaining). Every suppression record, the debug
record of lines 67-74 and the info record of lines 75-79 alike, is written
by the turn of an event, which logs exactly those two records, both with
the same time remaining: `EventTimeout - (currentTime - lastEventTime)`,
in Go's integer nanoseconds, truncated toward zero to whole seconds. When
the clock reading is not before `lastEventTime` (and `EventTimeout` is a
`Duration`) the subtraction is exact and the value lies between 0 and
`EventTimeout`; and whatever value is reported, the loop variables, the
calls of `WorkFunc` and the way the turn ends are the same. -/
theorem time_remaining_reported (dir : String) (config : DirectoryConfig)
    (st : GovernorState) (i : Input) (record : LogRecord) (r : Duration)
    (hrec : Effect.log record ∈ (loopBody dir config st i).effects)
    (hr : record.remaining = some r) :
    ∃ event cur, i = .event event cur ∧
      (loopBody dir config st i).effects =
        [.log (.suppressing (intIncr st.eventCount) config.MaxEvents config.EventTimeout
            st.lastEventTime cur r),
          .log (.suppressionStats event.Op config.EventTimeout r)] ∧
      r = Second * Int.tdiv
        (Duration.sub config.EventTimeout (cur.Sub st.lastEventTime)) Second ∧
      (st.lastEventTime.nsec ≤ cur.nsec → config.EventTimeout ≤ maxDuration →
        Duration.sub config.EventTimeout (cur.Sub st.lastEventTime) =
            config.EventTimeout - cur.Sub st.lastEventTime ∧
          0 ≤ r ∧ r ≤ config.EventTimeout) ∧
      ∀ report : Duration,
        (loopBodyReporting report dir config st i).state = (loopBody dir config st i).state ∧
          (loopBodyReporting report dir config st i).ctl = (loopBody dir config st i).ctl ∧
          workCalls (loopBodyReporting report dir config st i).effects =
            workCalls (loopBody dir config st i).effects := by
  obtain ⟨event, cur, hi, hrel, hwin, hover, hval⟩ :=
    suppression_record_origin dir config st i record r hrec hr
  subst hi
  have htrunc := Duration.Truncate_second
    (Duration.sub config.EventTimeout (cur.Sub st.lastEventTime))
    (wrapInt64_lower _) (wrapInt64_upper _)
  refine ⟨event, cur, rfl, ?_, by rw [hval, htrunc], ?_,
    fun report => loopBodyReporting_same report dir config st _⟩
  · rw [loopBody_over dir config st event cur hrel hwin hover, hval]
  · intro horder hfits
    have hpos := Time.Sub_nonneg cur st.lastEventTime horder
    have hexact : Duration.sub config.EventTimeout (cur.Sub st.lastEventTime) =
        config.EventTimeout - cur.Sub st.lastEventTime := by
      unfold Duration.sub
      unfold maxDuration Duration at *
      exact wrapInt64_of_fits _ (by omega) (by omega)
    have hbetween := tmod_second_between (config.EventTimeout - cur.Sub st.lastEventTime)
    have hkey := Int.tdiv_add_tmod (config.EventTimeout - cur.Sub st.lastEventTime) 1000000000
    rw [hval, htrunc, hexact]
    unfold Second maxDuration Duration at *
    refine ⟨rfl, ?_, ?_⟩ <;> omega

/-- Witness of C18: with a 5s window, a second `Write` 1.5s after the
first is suppressed; the info record it logs reports 3s, the 3.5s left
truncated, and so does the debug record beside it. -/
theorem time_remaining_reported_witness :
    (loopBody "dir" { MaxEvents := 1, EventTimeout := 5 * Second }
        { eventCount := 1, lastEventTime := { nsec := 0 } }
        (.event { Name := "dir/a", Op := Write } { nsec := 1500 * Millisecond })).effects =
        [.log (.suppressing 2 1 (5 * Second) { nsec := 0 } { nsec := 1500 * Millisecond }
            (3 * Second)),
          .log (.suppressionStats Write (5 * Second) (3 * Second))] ∧
      (3 * Second : Duration) =
        Second * Int.tdiv (Duration.sub (5 * Second)
          (Time.Sub { nsec := 1500 * Millisecond } { nsec := 0 })) Second ∧
      (0 : Duration) ≤ 3 * Second ∧ (3 * Second : Duration) ≤ 5 * Second := by
  obtain ⟨event, cur, hi, heff, hval, hbounds, _⟩ :=
    time_remaining_reported "dir" { MaxEvents := 1, EventTimeout := 5 * Second }
      { eventCount := 1, lastEventTime := { nsec := 0 } }
      (.event { Name := "dir/a", Op := Write } { nsec := 1500 * Millisecond })
      (.suppressionStats Write (5 * Second) (3 * Second)) (3 * Second)
      (by decide) rfl
  cases hi
  exact ⟨heff, hval, (hbounds (by decide) (by decide)).2⟩

/-! ## The rate limit -/

/-- A larger budget also suffices. -/
theorem gapBudget_mono (window : Duration) (max : Int) (l : List (Event × Time))
    (k k2 : Int) (prev : Time) (hk : k ≤ k2) (h : gapBudget window max k prev l) :
    gapBudget window max k2 prev l := by
  induction l generalizing k k2 prev with
  | nil => trivial
  | cons x rest ih =>
    simp only [gapBudget] at h ⊢
    split_ifs at h ⊢
    · exact h
    · exact ⟨by omega, ih (k - 1) (k2 - 1) x.2 (by omega) h.2⟩

/-- The admitted events of a run keep within the budget the count leaves:
from loop variables with count `c`, the events admitted without a gap of
more than `EventTimeout` number at most `MaxEvents - c`. The count stays
below the top of the `int` range. -/
theorem admittedEvents_budget (dir : String) (config : DirectoryConfig)
    (inputs : List Input) (st : GovernorState) (k : Int) (hlo : 0 ≤ st.eventCount)
    (hhi : st.eventCount + inputs.length ≤ 9223372036854775807)
    (hk : config.MaxEvents - st.eventCount ≤ k) :
    gapBudget config.EventTimeout config.MaxEvents k st.lastEventTime
      (admittedEvents dir config st inputs) := by
  induction inputs generalizing st k with
  | nil => trivial
  | cons i rest ih =>
    simp only [List.length_cons, Nat.cast_add, Nat.cast_one] at hhi
    have hpos : (0 : Int) ≤ rest.length := Int.ofNat_nonneg _
    cases i with
    | eventsClosed => trivial
    | errorsClosed => trivial
    | error err =>
      rw [admittedEvents_error_cons]
      exact ih st k hlo (by omega) hk
    | event event now =>
      have hinc : intIncr st.eventCount = st.eventCount + 1 :=
        intIncr_of_lt _ (by omega) (by omega)
      rw [admittedEvents_event_cons]
      by_cases hrel : opSwitch event.Op = true
      · by_cases hgap : now.Sub st.lastEventTime > config.EventTimeout
        · rw [loopBody_restart dir config st event now hrel hgap]
          have hadm : admits config st (.event event now) = true := by
            simp [admits, hrel, hgap]
          rw [if_pos hadm]
          simp only [gapBudget]
          rw [if_pos hgap]
          exact ih { eventCount := 1, lastEventTime := now } _ (by simp) (by simp; omega)
            (by simp)
        · by_cases hcount : intIncr st.eventCount ≤ config.MaxEvents
          · rw [loopBody_within dir config st event now hrel (not_lt.mp hgap) hcount]
            have hadm : admits config st (.event event now) = true := by
              simp [admits, hrel, hcount]
            rw [if_pos hadm]
            simp only [gapBudget]
            rw [if_neg hgap, hinc]
            rw [hinc] at hcount
            exact ⟨by omega, ih { eventCount := st.eventCount + 1, lastEventTime := now } _
              (by simp; omega) (by simp; omega) (by simp; omega)⟩
          · rw [loopBody_over dir config st event now hrel (not_lt.mp hgap) (not_le.mp hcount)]
            have hadm : admits config st (.event event now) = false := by
              simp [admits, hgap, hcount]
            rw [if_neg (by simp [hadm]), hinc]
            exact ih { eventCount := st.eventCount + 1, lastEventTime := st.lastEventTime } _
              (by simp; omega) (by simp; omega) (by simp; omega)
      · rw [loopBody_dropped dir config st event now (by simpa using hrel)]
        have hadm : admits config st (.event event now) = false := by
          simp [admits, hrel]
        rw [if_neg (by simp [hadm])]
        exact ih st k hlo (by omega) hk

/-- After any event of a budgeted list the budget is below `max`. -/
theorem gapBudget_tail (window : Duration) (max k : Int) (prev : Time) (x : Event × Time)
    (l : List (Event × Time)) (hk : k ≤ max) (h : gapBudget window max k prev (x :: l)) :
    ∃ k2, k2 ≤ max - 1 ∧ gapBudget window max k2 x.2 l := by
  simp only [gapBudget] at h
  split_ifs at h
  · exact ⟨max - 1, le_refl _, h⟩
  · exact ⟨k - 1, by omega, h.2⟩

/-- What is left of a budgeted list after some of its events is budgeted. -/
theorem gapBudget_suffix (window : Duration) (max : Int) (p l : List (Event × Time))
    (k : Int) (prev : Time) (hk : k ≤ max) (h : gapBudget window max k prev (p ++ l)) :
    ∃ k2 prev2, k2 ≤ max ∧ gapBudget window max k2 prev2 l := by
  induction p generalizing k prev with
  | nil => exact ⟨k, prev, hk, h⟩
  | cons x p ih =>
    obtain ⟨k2, hk2, h2⟩ := gapBudget_tail window max k prev x (p ++ l) hk h
    exact ih k2 x.2 (by omega) h2

/-- More events than the budget allows: two of them in a row are more
than `window` apart. -/
theorem gap_in_run (window : Duration) (max : Int) (w l : List (Event × Time))
    (x : Event × Time) (k : Int) (h : gapBudget window max k x.2 (w ++ l))
    (hk0 : 0 ≤ k) (hk : k < w.length) :
    ∃ l1 a b l2, x :: w = l1 ++ a :: b :: l2 ∧ b.2.Sub a.2 > window := by
  induction w generalizing x k with
  | nil => simp at hk; omega
  | cons y w ih =>
    simp only [List.cons_append, gapBudget] at h
    split_ifs at h with hgap
    · exact ⟨[], x, y, w, rfl, hgap⟩
    · simp only [List.length_cons, Nat.cast_add, Nat.cast_one] at hk
      obtain ⟨l1, a, b, l2, heq, hab⟩ := ih y (k - 1) h.2 (by omega) (by omega)
      exact ⟨x :: l1, a, b, l2, by rw [heq]; rfl, hab⟩

/-- The admitted events of a run of events are among those events, in
order. -/
theorem admittedEvents_sublist (dir : String) (config : DirectoryConfig)
    (evs : List (Event × Time)) (st : GovernorState) :
    List.Sublist (admittedEvents dir config st (eventInputs evs)) evs := by
  induction evs generalizing st with
  | nil => exact List.Sublist.slnil
  | cons p evs ih =>
    have hcons : eventInputs (p :: evs) = .event p.1 p.2 :: eventInputs evs := rfl
    rw [hcons, admittedEvents_event_cons]
    split_ifs
    · exact List.Sublist.cons₂ _ (ih _)
    · exact List.Sublist.cons _ (ih _)

/-- `Time.Sub` of a later instant from an earlier one is at most the
difference of the two. -/
theorem Time.Sub_le_diff (t u : Time) (h : u.nsec ≤ t.nsec) : t.Sub u ≤ t.nsec - u.nsec := by
  unfold Time.Sub minDuration maxDuration Duration
  split_ifs <;> omega

/-- In a list ordered by clock reading, with no event before `lo`, the
events up to `hi` are the beginning of the list. -/
theorem filter_prefix_of_sorted (lo hi : Int) (l : List (Event × Time))
    (hs : l.Pairwise (fun a b => a.2.nsec ≤ b.2.nsec)) (hlo : ∀ a ∈ l, lo ≤ a.2.nsec) :
    l.filter (fun p => decide (lo ≤ p.2.nsec ∧ p.2.nsec ≤ hi)) <+: l := by
  induction l with
  | nil => simp
  | cons x l ih =>
    rw [List.pairwise_cons] at hs
    have hx := hlo x (List.mem_cons_self _ _)
    have hrest : ∀ a ∈ l, lo ≤ a.2.nsec := fun a ha => hlo a (List.mem_cons_of_mem _ ha)
    by_cases hhi : x.2.nsec ≤ hi
    · rw [List.filter_cons_of_pos (by simp [hx, hhi])]
      exact (List.prefix_cons_inj x).mpr (ih hs.2 hrest)
    · rw [List.filter_cons_of_neg (by simp [hhi])]
      have hnil : l.filter (fun p => decide (lo ≤ p.2.nsec ∧ p.2.nsec ≤ hi)) = [] := by
        rw [List.filter_eq_nil_iff]
        intro a ha
        have := hs.1 a ha
        simp only [decide_eq_true_eq, not_and, not_le]
        intro _
        omega
      rw [hnil]
      exact List.nil_prefix

/-- In a list ordered by clock reading, the events of a time interval are
consecutive. -/
theorem filter_infix_of_sorted (lo hi : Int) (l : List (Event × Time))
    (hs : l.Pairwise (fun a b => a.2.nsec ≤ b.2.nsec)) :
    l.filter (fun p => decide (lo ≤ p.2.nsec ∧ p.2.nsec ≤ hi)) <:+: l := by
  induction l with
  | nil => simp
  | cons x l ih =>
    by_cases hlo : lo ≤ x.2.nsec
    · apply List.IsPrefix.isInfix
      apply filter_prefix_of_sorted lo hi (x :: l) hs
      intro a ha
      rcases List.mem_cons.mp ha with rfl | ha
      · exact hlo
      · have := (List.pairwise_cons.mp hs).1 a ha
        omega
    · rw [List.filter_cons_of_neg (by simp [hlo])]
      exact List.infix_cons (ih (List.pairwise_cons.mp hs).2)

/-- Among the admitted events of a run from the initial loop variables,
any `MaxEvents + 1` in a row contain two in a row that are more than
`EventTimeout` apart. -/
theorem admitted_run_has_gap (dir : String) (config : DirectoryConfig) (start : Time)
    (inputs : List Input) (hmax : 1 ≤ config.MaxEvents)
    (hlen : (inputs.length : Int) ≤ 9223372036854775807) (w : List (Event × Time))
    (hw : w <:+: admittedEvents dir config (initialState start) inputs)
    (hwlen : (w.length : Int) = config.MaxEvents + 1) :
    ∃ l1 a b l2, w = l1 ++ a :: b :: l2 ∧ b.2.Sub a.2 > config.EventTimeout := by
  have hbud := admittedEvents_budget dir config inputs (initialState start) config.MaxEvents
    (by simp [initialState]) (by simp [initialState]; omega) (by simp [initialState])
  obtain ⟨p, s, hps⟩ := hw
  cases w with
  | nil => simp at hwlen; omega
  | cons x w =>
    rw [← hps, List.append_assoc, List.cons_append] at hbud
    obtain ⟨k2, prev2, hk2, h2⟩ := gapBudget_suffix config.EventTimeout config.MaxEvents p
      (x :: (w ++ s)) config.MaxEvents _ (le_refl _) hbud
    obtain ⟨k3, hk3, h3⟩ := gapBudget_tail config.EventTimeout config.MaxEvents k2 prev2 x
      (w ++ s) hk2 h2
    have h4 := gapBudget_mono config.EventTimeout config.MaxEvents (w ++ s) k3
      (config.MaxEvents - 1) x.2 hk3 h3
    simp only [List.length_cons, Nat.cast_add, Nat.cast_one] at hwlen
    exact gap_in_run config.EventTimeout config.MaxEvents w s x (config.MaxEvents - 1) h4
      (by omega) (by omega)

/-- C16 (the rate limit is enforced). With `MaxEvents` at least 1, for a
sequence of events with non-decreasing clock readings processed from the
initial loop variables (a sequence within the range of Go's `int`): among
any `MaxEvents + 1` admitted events in a row, two in a row are more than
`EventTimeout` apart; so no time interval of length at most `EventTimeout`
holds more than `MaxEvents` admitted events; and the calls of `WorkFunc`
are one per admitted event. -/
theorem rate_limit_enforced (dir : String) (config : DirectoryConfig) (start : Time)
    (evs : List (Event × Time)) (hmax : 1 ≤ config.MaxEvents)
    (hord : List.Sorted (· ≤ ·) (evs.map (fun p => p.2.nsec)))
    (hlen : (evs.length : Int) ≤ 9223372036854775807) :
    (∀ w : List (Event × Time),
        w <:+: admittedEvents dir config (initialState start) (eventInputs evs) →
        (w.length : Int) = config.MaxEvents + 1 →
        ∃ l1 a b l2, w = l1 ++ a :: b :: l2 ∧ b.2.Sub a.2 > config.EventTimeout) ∧
      (∀ lo hi : Int, hi - lo ≤ config.EventTimeout →
        (((admittedEvents dir config (initialState start) (eventInputs evs)).filter
          (fun p => decide (lo ≤ p.2.nsec ∧ p.2.nsec ≤ hi))).length : Int)
            ≤ config.MaxEvents) ∧
      workCalls (runLoop dir config (initialState start) (eventInputs evs)).effects =
        (admittedEvents dir config (initialState start) (eventInputs evs)).map
          (fun _ => dir) := by
  have hlen2 : ((eventInputs evs).length : Int) ≤ 9223372036854775807 := by
    simpa [eventInputs] using hlen
  have hpart1 := admitted_run_has_gap dir config start (eventInputs evs) hmax hlen2
  refine ⟨hpart1, ?_, workCalls_runLoop dir config (eventInputs evs) (initialState start)⟩
  intro lo hi hspan
  by_contra hcon
  have hsorted : (admittedEvents dir config (initialState start) (eventInputs evs)).Pairwise
      (fun a b => a.2.nsec ≤ b.2.nsec) :=
    List.Pairwise.sublist (admittedEvents_sublist dir config evs (initialState start))
      (List.pairwise_map.mp hord)
  have hinfix := filter_infix_of_sorted lo hi _ hsorted
  generalize hF : (admittedEvents dir config (initialState start) (eventInputs evs)).filter
    (fun p => decide (lo ≤ p.2.nsec ∧ p.2.nsec ≤ hi)) = F at hcon hinfix
  have hn : ((config.MaxEvents.toNat : Nat) : Int) = config.MaxEvents :=
    Int.toNat_of_nonneg (by omega)
  have htake : (F.take (config.MaxEvents.toNat + 1)).length = config.MaxEvents.toNat + 1 := by
    rw [List.length_take]
    omega
  have hwin : F.take (config.MaxEvents.toNat + 1) <:+:
      admittedEvents dir config (initialState start) (eventInputs evs) :=
    List.IsInfix.trans (List.take_prefix _ F).isInfix hinfix
  obtain ⟨l1, a, b, l2, hw, hgap⟩ := hpart1 _ hwin (by rw [htake]; push_cast; omega)
  have hmemF : ∀ q ∈ F.take (config.MaxEvents.toNat + 1), lo ≤ q.2.nsec ∧ q.2.nsec ≤ hi := by
    intro q hq
    have hqF : q ∈ F := List.mem_of_mem_take hq
    rw [← hF] at hqF
    simpa using (List.mem_filter.mp hqF).2
  have ha := hmemF a (by rw [hw]; simp)
  have hb := hmemF b (by rw [hw]; simp)
  have hpair := List.Pairwise.sublist hwin.sublist hsorted
  rw [hw, List.pairwise_append, List.pairwise_cons] at hpair
  have hab : a.2.nsec ≤ b.2.nsec := hpair.2.1.1 b (List.mem_cons_self _ _)
  have hsub := Time.Sub_le_diff b.2 a.2 hab
  unfold Duration at *
  omega

/-- Witness of C16: `MaxEvents = 2`, a 5s window, `Write` events at 0, 1s,
2s, 7s and 8s; those at 0, 1s, 7s and 8s are admitted. Of the first three
admitted, the second and third are 6s apart, and the interval from 0 to 5s
holds two admitted events. -/
theorem rate_limit_enforced_witness :
    (∃ l1 a b l2,
        [(({ Name := "dir/a", Op := Write } : Event), ({ nsec := 0 } : Time)),
          ({ Name := "dir/a", Op := Write }, { nsec := Second }),
          ({ Name := "dir/a", Op := Write }, { nsec := 7 * Second })] = l1 ++ a :: b :: l2 ∧
        b.2.Sub a.2 > 5 * Second) ∧
      (((admittedEvents "dir" { MaxEvents := 2, EventTimeout := 5 * Second }
          (initialState { nsec := 0 })
          (eventInputs [({ Name := "dir/a", Op := Write }, { nsec := 0 }),
            ({ Name := "dir/a", Op := Write }, { nsec := Second }),
            ({ Name := "dir/a", Op := Write }, { nsec := 2 * Second }),
            ({ Name := "dir/a", Op := Write }, { nsec := 7 * Second }),
            ({ Name := "dir/a", Op := Write }, { nsec := 8 * Second })])).filter
        (fun p => decide (0 ≤ p.2.nsec ∧ p.2.nsec ≤ 5 * Second))).length : Int) ≤ 2 :=
  have h := rate_limit_enforced "dir" { MaxEvents := 2, EventTimeout := 5 * Second }
    { nsec := 0 }
    [({ Name := "dir/a", Op := Write }, { nsec := 0 }),
      ({ Name := "dir/a", Op := Write }, { nsec := Second }),
      ({ Name := "dir/a", Op := Write }, { nsec := 2 * Second }),
      ({ Name := "dir/a", Op := Write }, { nsec := 7 * Second }),
      ({ Name := "dir/a", Op := Write }, { nsec := 8 * Second })]
    (by decide) (by decide) (by decide)
  ⟨h.1 _ ⟨[], [({ Name := "dir/a", Op := Write }, { nsec := 8 * Second })], by decide⟩
      (by decide),
    h.2.1 0 (5 * Second) (by decide)⟩

end watch
